import Mathlib

/-!
Verification of the ebook_to_md document reconstruction pipeline
(skills/ebook_to_md/ebook_to_md.py and skills/ebook_to_md/scripts/ebook_to_md.py).

The Python source is shallowly embedded: strings are Lean String (with the
character list s.data used where scanning is convenient), Python ints are Int
or Nat, dictionaries with fixed key sets are structures, and fallible calls to
the outside world (HTTP, OCR, the filesystem) are oracle fields of environment
structures returning Except values, where an Except.error models a raised
Python exception.  Regular expressions used by the source are embedded as
bespoke matchers that follow the backtracking semantics of the concrete
patterns; each matcher is documented next to the pattern it implements.
-/

set_option maxHeartbeats 1600000
set_option maxRecDepth 8192
set_option synthInstance.maxSize 2000
set_option synthInstance.maxHeartbeats 1000000
set_option linter.unusedVariables false

namespace EbookToMd

/-- Python whitespace class for the re module's backslash-s on ASCII text:
space, tab, newline, carriage return, vertical tab, form feed.  (Python also
treats some exotic Unicode code points as whitespace; the documents modelled
here do not contain them.) -/
def isPyWs (c : Char) : Bool :=
  c == ' ' || c == '\t' || c == '\n' || c == '\r' || c == '\x0b' || c == '\x0c'

/-- Python str.strip with no arguments, left side. -/
def pyStripLeft (s : String) : String := String.mk (s.data.dropWhile isPyWs)

/-- Python str.strip with no arguments, right side. -/
def pyStripRight (s : String) : String :=
  String.mk ((s.data.reverse.dropWhile isPyWs).reverse)

/-- Python str.strip with no arguments. -/
def pyStrip (s : String) : String := pyStripRight (pyStripLeft s)

/-- Python str.isdigit restricted to ASCII digits (the OCR tokens the source
feeds to it are ASCII digit runs). -/
def isDigits (s : String) : Bool := s.data ≠ [] && s.data.all Char.isDigit

/-- Python str.startswith. -/
def strStartsWith (s p : String) : Bool := p.data.isPrefixOf s.data

/-- Python membership of one character in a string. -/
def pyContains (s : String) (c : Char) : Bool := s.data.contains c

/-- The scan of Python str.replace: leftmost, non-overlapping. -/
def replaceGo (pat rep : List Char) : Nat → List Char → List Char
  | _, [] => []
  | 0, l => l
  | f + 1, c :: rest =>
    if pat.isPrefixOf (c :: rest) then rep ++ replaceGo pat rep f ((c :: rest).drop pat.length)
    else c :: replaceGo pat rep f rest

/-- Python str.replace for a nonempty pattern. -/
def pyReplace (s pat rep : String) : String :=
  String.mk (replaceGo pat.data rep.data s.data.length s.data)

/- ===== Table Reconstructor: _table_to_html (ebook_to_md.py lines 325-390) ===== -/

/-- Cell-index matrix: each position holds the index of the logical cell
occupying it (the Python value table["matrix"], a list of lists of ints). -/
abbrev Mat := List (List Nat)

/-- The Python row access matrix[r] (total via getD; all uses are in bounds,
see the theorem for C9). -/
def rowAt (mat : Mat) (r : Nat) : List Nat := mat.getD r []

/-- The Python access matrix[r][c]. -/
def entry (mat : Mat) (r c : Nat) : Nat := (rowAt mat r).getD c 0

/-- Source get_colspan (lines 335-343): starting from idx_val = mat[r][c],
count 1 plus the consecutive cc in range(c+1, len(mat[r])) with
mat[r][cc] == idx_val, stopping at the first mismatch. -/
def get_colspan (mat : Mat) (r c : Nat) : Nat :=
  1 + (((rowAt mat r).drop (c + 1)).takeWhile (fun x => x == entry mat r c)).length

/-- Source get_rowspan (lines 345-353): count 1 plus the consecutive rr in
range(r+1, rows) with c < len(mat[rr]) and mat[rr][c] == idx_val, stopping at
the first row failing either condition. -/
def get_rowspan (mat : Mat) (r c : Nat) : Nat :=
  1 + ((mat.drop (r + 1)).takeWhile
    (fun row => decide (c < row.length) && (row.getD c 0 == entry mat r c))).length

/-- The positions marked covered when the precomputation loop (lines 355-364)
processes position (r, c): rr in range(r+1, r + rowspan), cc in
range(c, min(c + colspan, len(matrix[rr]) if rr < rows else 0)), each marked
only under the guard rr < rows. -/
def coveredFrom (mat : Mat) (rows r c : Nat) : List (Nat × Nat) :=
  (List.range' (r + 1) (get_rowspan mat r c - 1)).flatMap (fun rr =>
    if rr < rows then
      (List.range' c (min (c + get_colspan mat r c) (rowAt mat rr).length - c)).map
        (fun cc => (rr, cc))
    else [])

/-- One step of the precomputation loop body: skip a position already in
rowspan_at, otherwise add the positions it covers. -/
def coveredStep (mat : Mat) (rows : Nat) (acc : List (Nat × Nat)) (rc : Nat × Nat) :
    List (Nat × Nat) :=
  if rc ∈ acc then acc else acc ++ coveredFrom mat rows rc.1 rc.2

/-- All matrix positions in the order the two nested for loops of lines
356-357 visit them: r in range(rows), c in range(len(matrix[r])). -/
def positions (mat : Mat) : List (Nat × Nat) :=
  (List.range mat.length).flatMap (fun r =>
    (List.range (rowAt mat r).length).map (fun c => (r, c)))

/-- The rowspan_at dictionary of lines 355-364, as the list of keys inserted
(membership is what the source tests). -/
def rowspan_at (mat : Mat) : List (Nat × Nat) :=
  (positions mat).foldl (coveredStep mat mat.length) []

/-- The while loop of lines 369-387 for one table row: starting at column c,
skip covered positions by one, otherwise emit the cell (column, rowspan,
colspan) and jump by its colspan.  The source builds the td string at this
point; the string rendering is tdString below. -/
def emitRow (mat : Mat) (cov : List (Nat × Nat)) (r c : Nat) : List (Nat × Nat × Nat) :=
  if h : c < (rowAt mat r).length then
    if (r, c) ∈ cov then emitRow mat cov r (c + 1)
    else
      (c, get_rowspan mat r c, get_colspan mat r c) ::
        emitRow mat cov r (c + get_colspan mat r c)
  else []
termination_by (rowAt mat r).length - c
decreasing_by
  · omega
  · simp only [get_colspan]
    omega

/-- The four positions of a 2 by 2 merged region whose top-left matrix
position is (r0, c0). -/
def inBlock (r0 c0 r c : Nat) : Prop := (r = r0 ∨ r = r0 + 1) ∧ (c = c0 ∨ c = c0 + 1)

instance (r0 c0 r c : Nat) : Decidable (inBlock r0 c0 r c) := by
  unfold inBlock
  infer_instance

/-- The Python dict for one table: cells is the list of cell texts (each the
value of cell.get("text") with None collapsed to the empty string, as the
source's expression (cell.get("text") or "") does), matrix the cell-index
matrix, markdown the raw-markdown fallback. -/
structure PyTable where
  cells : List String
  matrix : Mat
  markdown : String

/-- Python max(len(r) for r in matrix) under the guard matrix is nonempty. -/
def tableCols (mat : Mat) : Nat := (mat.map List.length).foldl max 0

/-- The emitted cell structure of _table_to_html: none when the source falls
back to the raw markdown (empty cells, missing or empty matrix, zero rows or
columns, lines 328-333), otherwise for each row the emitted cells with their
rowspan and colspan. -/
def emittedCellData (t : PyTable) : Option (List (List (Nat × Nat × Nat))) :=
  if t.cells = [] ∨ t.matrix = [] then none
  else if t.matrix.length = 0 ∨ tableCols t.matrix = 0 then none
  else some ((List.range t.matrix.length).map
    (fun r => emitRow t.matrix (rowspan_at t.matrix) r 0))

/-- Lines 376-378: strip the cell text and escape ampersand, angle brackets,
double quote, and turn newlines into br tags, in the source's order. -/
def escapeCell (s : String) : String :=
  pyReplace (pyReplace (pyReplace (pyReplace (pyReplace (pyStrip s)
    "&" "&amp;") "<" "&lt;") ">" "&gt;") "\"" "&quot;") "\n" "<br>"

/-- Lines 374-386: the td element for the cell at (r, c).  The cell text is
cells[idx_val] when idx_val < len(cells), else the empty dict whose text is
empty; the attribute list carries rowspan and colspan only when above 1. -/
def tdString (cells : List String) (mat : Mat) (r c rspan cspan : Nat) : String :=
  let idx := entry mat r c
  let cellText := if idx < cells.length then cells.getD idx "" else ""
  let attrs := ["style=\"text-align:center\""]
    ++ (if rspan > 1 then ["rowspan=\"" ++ toString rspan ++ "\""] else [])
    ++ (if cspan > 1 then ["colspan=\"" ++ toString cspan ++ "\""] else [])
  "<td " ++ String.intercalate " " attrs ++ ">" ++ escapeCell cellText ++ "</td>"

/-- The html list of lines 366-390 joined by newlines: table wrapper, then per
row a tr wrapper around the emitted td cells; on the fallback path the table's
raw markdown. -/
def _table_to_html (t : PyTable) : String :=
  match emittedCellData t with
  | none => t.markdown
  | some em =>
    String.intercalate "\n"
      (["<table style=\"text-align:center\">"]
        ++ em.enum.flatMap (fun p =>
            ["<tr>"] ++ p.2.map (fun e => tdString t.cells t.matrix p.1 e.1 e.2.1 e.2.2)
              ++ ["</tr>"])
        ++ ["</table>"])

/- ===== Bounds-checked mirror of _table_to_html: every Python subscript
access l[i] is threaded through Option, so a would-be IndexError surfaces
as none.  The loops carry a fuel argument equal to the Python range length,
so the recursion mirrors exactly the iterations the source performs. ===== -/

/-- The Python subscript l[i]: some l[i] in bounds, none on IndexError. -/
def subO {α : Type} (l : List α) (i : Nat) : Option α := l[i]?

/-- The loop of get_colspan (lines 338-342) with the access mat[r][cc]
checked; fuel is the length of range(c+1, len(mat[r])). -/
def colLoopO (row : List Nat) (v : Nat) : Nat → Nat → Nat → Option Nat
  | 0, _, count => some count
  | fuel + 1, cc, count =>
    match subO row cc with
    | none => none
    | some x => if x == v then colLoopO row v fuel (cc + 1) (count + 1) else some count

/-- get_colspan (lines 335-343) with the accesses mat[r] and mat[r][c]
checked. -/
def get_colspanO (mat : Mat) (r c : Nat) : Option Nat :=
  match subO mat r with
  | none => none
  | some row =>
    match subO row c with
    | none => none
    | some v => colLoopO row v (row.length - (c + 1)) (c + 1) 1

/-- The loop of get_rowspan (lines 348-352) with the access mat[rr] checked;
the element access mat[rr][c] sits behind the source's own c < len(mat[rr])
guard.  fuel is the length of range(r+1, rows) with rows = len(mat). -/
def rowLoopO (mat : Mat) (v c : Nat) : Nat → Nat → Nat → Option Nat
  | 0, _, count => some count
  | fuel + 1, rr, count =>
    match subO mat rr with
    | none => none
    | some row =>
      if c < row.length then
        match subO row c with
        | none => none
        | some x =>
          if x == v then rowLoopO mat v c fuel (rr + 1) (count + 1) else some count
      else some count

/-- get_rowspan (lines 345-353) with the accesses mat[r] and mat[r][c]
checked. -/
def get_rowspanO (mat : Mat) (r c : Nat) : Option Nat :=
  match subO mat r with
  | none => none
  | some row =>
    match subO row c with
    | none => none
    | some v => rowLoopO mat v c (mat.length - (r + 1)) (r + 1) 1

/-- The body of the precomputation loop (lines 358-364) at one position:
the idx_val access matrix[r][c], the two span computations, and per rr the
guarded access matrix[rr] for the min bound, all checked. -/
def coveredFromO (mat : Mat) (rows r c : Nat) : Option (List (Nat × Nat)) :=
  match subO mat r with
  | none => none
  | some row =>
    match subO row c with
    | none => none
    | some _ =>
      match get_rowspanO mat r c with
      | none => none
      | some rs =>
        (List.range' (r + 1) (rs - 1)).foldlM (fun acc rr =>
          match get_colspanO mat r c with
          | none => none
          | some cs =>
            if rr < rows then
              match subO mat rr with
              | none => none
              | some rowr =>
                some (acc ++ (List.range' c (min (c + cs) rowr.length - c)).map
                  (fun cc => (rr, cc)))
            else some acc) []

/-- coveredStep with the body's accesses checked: a position already in
rowspan_at is skipped before any access, as in the source (lines 358-359). -/
def coveredStepO (mat : Mat) (rows : Nat) (acc : List (Nat × Nat)) (rc : Nat × Nat) :
    Option (List (Nat × Nat)) :=
  if rc ∈ acc then some acc
  else
    match coveredFromO mat rows rc.1 rc.2 with
    | none => none
    | some cf => some (acc ++ cf)

/-- The positions the two nested loops of lines 356-357 visit, with the
access matrix[r] (for the inner range bound len(matrix[r])) checked. -/
def positionsO (mat : Mat) (rows : Nat) : Option (List (Nat × Nat)) :=
  (List.range rows).foldlM (fun acc r =>
    match subO mat r with
    | none => none
    | some row => some (acc ++ (List.range row.length).map (fun c => (r, c)))) []

/-- rowspan_at (lines 355-364) with every access checked. -/
def rowspan_atO (mat : Mat) : Option (List (Nat × Nat)) :=
  match positionsO mat mat.length with
  | none => none
  | some ps => ps.foldlM (coveredStepO mat mat.length) []

/-- The while loop of lines 369-387 with the accesses matrix[r] (for the
loop condition's len(matrix[r])), matrix[r][c] (idx_val) and the two span
computations checked; fuel bounds the iterations, and runs out (none) only
if the loop would run longer than the row length, which the equivalence
theorem below rules out. -/
def emitRowO (mat : Mat) (cov : List (Nat × Nat)) (r : Nat) :
    Nat → Nat → Option (List (Nat × Nat × Nat))
  | 0, c =>
    match subO mat r with
    | none => none
    | some row => if c < row.length then none else some []
  | fuel + 1, c =>
    match subO mat r with
    | none => none
    | some row =>
      if c < row.length then
        if (r, c) ∈ cov then emitRowO mat cov r fuel (c + 1)
        else
          match subO row c with
          | none => none
          | some _ =>
            match get_rowspanO mat r c, get_colspanO mat r c with
            | some rs, some cs =>
              match emitRowO mat cov r fuel (c + cs) with
              | none => none
              | some rest => some ((c, rs, cs) :: rest)
            | _, _ => none
      else some []

/-- _table_to_html with every matrix subscript checked: on the fallback
paths (lines 328-333) no access happens; otherwise the precomputation and
the emission loop run with checked accesses and the same html is built. -/
def _table_to_htmlO (t : PyTable) : Option String :=
  if t.cells = [] ∨ t.matrix = [] then some t.markdown
  else if t.matrix.length = 0 ∨ tableCols t.matrix = 0 then some t.markdown
  else
    match rowspan_atO t.matrix with
    | none => none
    | some cov =>
      match (List.range t.matrix.length).mapM (fun r =>
          match subO t.matrix r with
          | none => none
          | some row => emitRowO t.matrix cov r row.length 0) with
      | none => none
      | some em =>
        some (String.intercalate "\n"
          (["<table style=\"text-align:center\">"]
            ++ em.enum.flatMap (fun p =>
                ["<tr>"] ++ p.2.map (fun e => tdString t.cells t.matrix p.1 e.1 e.2.1 e.2.2)
                  ++ ["</tr>"])
            ++ ["</table>"]))

/- ===== Figure Locator & Extractor: _LocalPdfOcrImpl._extract_figures
       (ebook_to_md.py lines 560-625) ===== -/

/-- The parallel per-token arrays of the pytesseract image_to_data dictionary
consumed by _extract_figures: text, left, top, width, height, line_num.
The source reads entries at indices below len(data["text"]); the arrays are
parallel, so accesses use getD with a default that is never reached for real
OCR output. -/
structure OcrData where
  text : List String
  left : List Int
  top : List Int
  width : List Int
  height : List Int
  line_num : List Int

/-- A crop rectangle in page-image pixel coordinates, the four arguments the
source passes to img.crop((crop_left, crop_top, crop_right, crop_bottom)). -/
structure CropRegion where
  top : Int
  left : Int
  right : Int
  bottom : Int
deriving DecidableEq, Repr

/-- FIG_HEIGHT_PT * scale for the default scale 2.0 used by the callers of
_extract_figures: 260 * 2 = 520 rendered pixels.  The Python value is the
float 520.0 and int() truncation on integer token coordinates is exact. -/
def figHeightPx : Int := 520

/-- The inner loop of lines 580-585: scan tokens after i on the same OCR line
for the first purely numeric token; stop at the first token on another line. -/
def scanDigitTok (d : OcrData) (ln : Int) (j : Nat) : Option String :=
  if j < d.text.length then
    if d.line_num.getD j 0 ≠ ln then none
    else
      let nt := pyStrip (d.text.getD j "")
      if isDigits nt then some nt else scanDigitTok d ln (j + 1)
  else none
termination_by d.text.length - j

/-- The search of the pattern marker-glyph, optional whitespace, digits (line
588) inside a single token: leftmost occurrence, maximal digit run. -/
def searchFigNum : List Char → Option String
  | [] => none
  | c :: rest =>
    if c = '图' then
      let digits := (rest.dropWhile isPyWs).takeWhile Char.isDigit
      if digits ≠ [] then some (String.mk digits) else searchFigNum rest
    else searchFigNum rest

/-- The second inner loop of lines 598-613: scan tokens after i on the same
OCR line for the token equal to the caption number and return its box. -/
def scanUnionTok (d : OcrData) (ln : Int) (figNum : String) (j : Nat) :
    Option (Int × Int × Int × Int) :=
  if j < d.text.length then
    if d.line_num.getD j 0 ≠ ln then none
    else
      let nt := pyStrip (d.text.getD j "")
      if nt = figNum then
        some (d.left.getD j 0, d.top.getD j 0, d.width.getD j 0, d.height.getD j 0)
      else scanUnionTok d ln figNum (j + 1)
  else none
termination_by d.text.length - j

/-- The body of the per-token loop of _extract_figures (lines 576-617) up to
the crop computation: caption detection, duplicate filtering, box union for
the two-token marker shape, and the crop region of lines 614-617.  Note the
source computes crop_bottom as top + height + 10 with no clamping against the
page image height imgH; top and left are clamped below by 0 and right above
by the page image width imgW. -/
def processToken (d : OcrData) (i : Nat) (figures : List String) (imgW imgH : Int) :
    Option (String × CropRegion) :=
  let txt := pyStrip (d.text.getD i "")
  let ln := d.line_num.getD i 0
  let figNum : Option String :=
    if txt = "图" then scanDigitTok d ln (i + 1)
    else if txt ≠ "" ∧ txt.data.getD 0 ' ' = '图' ∧ txt.length > 1 then searchFigNum txt.data
    else none
  match figNum with
  | none => none
  | some n =>
    if n = "" ∨ n ∈ figures then none
    else
      let left := d.left.getD i 0
      let top := d.top.getD i 0
      let width := d.width.getD i 0
      let height := d.height.getD i 0
      let box :=
        if txt = "图" then
          match scanUnionTok d ln n (i + 1) with
          | some (l2, t2, w2, h2) =>
            let left1 := min left l2
            let top1 := min top t2
            (left1, top1, max (left1 + width) (l2 + w2) - left1,
              max (top1 + height) (t2 + h2) - top1)
          | none => (left, top, width, height)
        else (left, top, width, height)
      some (n, { top := max 0 (box.2.1 - figHeightPx), left := max 0 (box.1 - 20),
                 right := min imgW (box.1 + box.2.2.1 + 20),
                 bottom := box.2.1 + box.2.2.2 + 10 })

/-- The per-page figure accumulation of lines 576-623: tokens in index order,
first occurrence of a caption number wins, each found figure mapped to the
relative path of its saved crop (the crop file write is a filesystem effect
outside the returned map). -/
def figuresFromPage (d : OcrData) (imgW imgH : Int) (stemName : String)
    (figs : List (String × String)) : List (String × String) :=
  (List.range d.text.length).foldl (fun figs i =>
    match processToken d i (figs.map Prod.fst) imgW imgH with
    | some (n, _) =>
      figs ++ [(n, "./" ++ (stemName ++ "_images") ++ "/" ++ ("fig" ++ n ++ ".png"))]
    | none => figs) figs

/-- The whole-document figure map of _extract_figures, given the per-page OCR
data and page-image dimensions produced by the external OCR backend. -/
def _extract_figures (pages : List (OcrData × Int × Int)) (stemName : String) :
    List (String × String) :=
  pages.foldl (fun figs pg => figuresFromPage pg.1 pg.2.1 pg.2.2 stemName figs) []

/- ===== Image Reference Resolver: IMG_SRC_PATTERN and the two inlining
       policies (ebook_to_md.py lines 58, 291-322, 437-467) ===== -/

/-- Case-insensitive literal match at the head of a list; on success the
remainder after the literal. -/
def ciPrefixDrop (pat l : List Char) : Option (List Char) :=
  match pat, l with
  | [], rest => some rest
  | _ :: _, [] => none
  | p :: ps, c :: cs => if c.toLower = p.toLower then ciPrefixDrop ps cs else none

/-- Case-sensitive literal match at the head of a list. -/
def exactPrefixDrop (pat l : List Char) : Option (List Char) :=
  if pat.isPrefixOf l then some (l.drop pat.length) else none

/-- The character class of IMG_SRC_PATTERN's capture group: everything except
quotes, the closing angle bracket and whitespace. -/
def isUrlChar (c : Char) : Bool := !(c == '"' || c == '\x27' || c == '>' || isPyWs c)

/-- Matcher for IMG_SRC_PATTERN (line 58): the img tag opener, mandatory
whitespace, the src= attribute, an optional quote, the nonempty URL capture
group, an optional quote, optional whitespace, an optional slash and the
closing angle bracket, case-insensitively.  For this pattern greedy matching
never needs to give characters back (the capture class excludes every
character the following optional atoms can consume except the slash, which
the optional slash atom never needs), so the matcher is deterministic.
Returns the captured URL and the remainder after the match. -/
def optQuoteDrop (l : List Char) : List Char :=
  if l.headD ' ' == '"' || l.headD ' ' == '\x27' then l.tail else l

def optSlashDrop (l : List Char) : List Char :=
  if l.headD ' ' == '/' then l.tail else l

def imgMatchAt (l : List Char) : Option (List Char × List Char) :=
  match ciPrefixDrop "<img".data l with
  | none => none
  | some l1 =>
    if (l1.takeWhile isPyWs).length = 0 then none
    else
      match ciPrefixDrop "src=".data (l1.drop (l1.takeWhile isPyWs).length) with
      | none => none
      | some l3 =>
        let l4 := optQuoteDrop l3
        if (l4.takeWhile isUrlChar).length = 0 then none
        else
          match optSlashDrop
              ((optQuoteDrop (l4.drop (l4.takeWhile isUrlChar).length)).dropWhile isPyWs) with
          | '>' :: rem => some (l4.takeWhile isUrlChar, rem)
          | _ => none

/-- The scanning substitution of re.sub over IMG_SRC_PATTERN with a
state-threading replacement function (the source threads a mutable counter
through the local-file policy's replacement closure).  The fuel argument is
the length of the scanned list; each step consumes at least one character. -/
def imgSubGo {σ : Type} (repl : σ → List Char → List Char → σ × List Char) :
    Nat → σ → List Char → List Char
  | _, _, [] => []
  | 0, _, l => l
  | f + 1, st, c :: rest =>
    match imgMatchAt (c :: rest) with
    | some (url, rem) =>
      let n := (c :: rest).length - rem.length
      let pr := repl st ((c :: rest).take n) url
      pr.2 ++ imgSubGo repl f pr.1 rem
    | none => c :: imgSubGo repl f st rest

/-- The match segmentation of a document under IMG_SRC_PATTERN: the list of
(gap before the match, matched text, captured URL) triples in order, plus the
trailing gap after the last match. -/
def imgSegsGo : Nat → List Char → List (List Char × List Char × List Char) × List Char
  | _, [] => ([], [])
  | 0, l => ([], l)
  | f + 1, c :: rest =>
    match imgMatchAt (c :: rest) with
    | some (url, rem) =>
      let n := (c :: rest).length - rem.length
      let p := imgSegsGo f rem
      (([], (c :: rest).take n, url) :: p.1, p.2)
    | none =>
      match imgSegsGo f rest with
      | ([], tl) => ([], c :: tl)
      | ((g, m, u) :: segs, tl) => ((c :: g, m, u) :: segs, tl)

/-- Segmentation of a whole document body. -/
def imgRefSegments (l : List Char) : List (List Char × List Char × List Char) × List Char :=
  imgSegsGo l.length l

/-- Reassembling a segmented document, threading the replacement state
through the matches in order: each gap is kept and each matched text is
replaced by the replacement output. -/
def rebuildImg {σ : Type} (repl : σ → List Char → List Char → σ × List Char) :
    σ → List (List Char × List Char × List Char) → List Char → List Char
  | _, [], tl => tl
  | st, (g, m, u) :: segs, tl =>
    g ++ (repl st m u).2 ++ rebuildImg repl (repl st m u).1 segs tl

/-- The replacement outputs of the matches in order, threading the state. -/
def replOuts {σ : Type} (repl : σ → List Char → List Char → σ × List Char) :
    σ → List (List Char × List Char × List Char) → List (List Char)
  | _, [] => []
  | st, seg :: segs => (repl st seg.2.1 seg.2.2).2 :: replOuts repl (repl st seg.2.1 seg.2.2).1 segs

/-- Byte values of an ASCII string literal, for the image signature bytes. -/
def bytesOf (s : String) : List Nat := s.data.map Char.toNat

/-- Source _detect_image_mime (lines 291-302): dispatch on the leading bytes
of the fetched image, defaulting to JPEG. -/
def _detect_image_mime (raw : List Nat) : String :=
  if raw.take 2 = [0xff, 0xd8] then "image/jpeg"
  else if raw.take 8 = [0x89, 0x50, 0x4e, 0x47, 0x0d, 0x0a, 0x1a, 0x0a] then "image/png"
  else if raw.take 6 = bytesOf "GIF87a" ∨ raw.take 6 = bytesOf "GIF89a" then "image/gif"
  else if raw.take 2 = bytesOf "BM" then "image/bmp"
  else if raw.length > 12 ∧ raw.take 4 = bytesOf "RIFF" ∧ (raw.drop 8).take 4 = bytesOf "WEBP"
    then "image/webp"
  else "image/jpeg"

/-- The extension map of _fetch_image_raw (lines 310-317). -/
def mimeExt (mime : String) : String :=
  if mime = "image/jpeg" then ".jpg"
  else if mime = "image/png" then ".png"
  else if mime = "image/gif" then ".gif"
  else if mime = "image/bmp" then ".bmp"
  else if mime = "image/webp" then ".webp"
  else ".jpg"

/-- Standard base64 alphabet used by Python base64.b64encode. -/
def b64Chars : List Char :=
  "ABCDEFGHIJKLMNOPQRSTUVWXYZabcdefghijklmnopqrstuvwxyz0123456789+/".data

/-- One base64 digit; inputs are below 64 for byte inputs below 256. -/
def b64Char (n : Nat) : Char := b64Chars.getD n 'A'

/-- Python base64.b64encode on a byte list (bytes below 256). -/
def base64Encode : List Nat → List Char
  | [] => []
  | [a] => [b64Char (a / 4), b64Char (a % 4 * 16), '=', '=']
  | [a, b] => [b64Char (a / 4), b64Char (a % 4 * 16 + b / 16), b64Char (b % 16 * 4), '=']
  | a :: b :: c :: rest =>
    [b64Char (a / 4), b64Char (a % 4 * 16 + b / 16), b64Char (b % 16 * 4 + c / 64),
      b64Char (c % 64)] ++ base64Encode rest

/-- Source _fetch_image_as_base64 (lines 320-322) given the raw bytes a
successful fetch returned: a data URI with the detected mime type. -/
def dataUriOf (raw : List Nat) : List Char :=
  ("data:" ++ _detect_image_mime raw ++ ";base64,").data ++ base64Encode raw

/-- The replacement closure of _inline_images_as_base64 (lines 438-443): on a
successful fetch an image reference holding the data URI, on a fetch failure
the original matched text with the download-failure annotation appended. -/
def b64Repl (fetch : String → Except String (List Nat)) (st : Unit)
    (matched url : List Char) : Unit × List Char :=
  match fetch (pyStrip (String.mk url)) with
  | .ok raw => ((), "![](".data ++ dataUriOf raw ++ [')'])
  | .error e => ((), matched ++ ("  <!-- 下载失败: " ++ e ++ " -->").data)

/-- Source _inline_images_as_base64 (lines 437-445); the fetch oracle stands
for requests.get plus raise_for_status, an error being a raised exception
rendered through str(e). -/
def _inline_images_as_base64 (fetch : String → Except String (List Nat)) (md : String) :
    String :=
  String.mk (imgSubGo (b64Repl fetch) md.data.length () md.data)

/-- The replacement closure of _inline_images_as_local (lines 456-465): on a
successful fetch the next sequential local filename with the detected
extension (the counter advances only on success), on a failure the original
text with the annotation.  The byte write to the images directory is a
filesystem effect outside the returned document string. -/
def localRepl (fetch : String → Except String (List Nat)) (relDir : String) (idx : Nat)
    (matched url : List Char) : Nat × List Char :=
  match fetch (pyStrip (String.mk url)) with
  | .ok raw =>
    (idx + 1, ("![](" ++ (relDir ++ (toString idx ++ mimeExt (_detect_image_mime raw))) ++ ")").data)
  | .error e => (idx, matched ++ ("  <!-- 下载失败: " ++ e ++ " -->").data)

/-- Source _inline_images_as_local (lines 448-467); stemName is
output_path.stem, the images directory created by the source being a
filesystem effect. -/
def _inline_images_as_local (fetch : String → Except String (List Nat)) (stemName : String)
    (md : String) : String :=
  String.mk (imgSubGo (localRepl fetch ("./" ++ (stemName ++ "_images") ++ "/"))
    md.data.length 0 md.data)

/- ===== Figure-markup normalization: _normalize_figure_to_markdown
       (ebook_to_md.py lines 421-434, scripts variant lines 365-394) ===== -/

/-- The two capture groups of the figure pattern: g1 is the markdown image
path group (none when the inline img-tag alternative matched), g2 is the
figcaption text group. -/
structure FigMatch where
  g1 : Option (List Char)
  g2 : List Char
deriving DecidableEq

/-- Remainder after the earliest case-insensitive occurrence of a literal,
the semantics of a non-greedy dot-star followed by the literal under the
DOTALL flag. -/
def findCiDrop (pat : List Char) : List Char → Option (List Char)
  | [] => ciPrefixDrop pat []
  | c :: rest =>
    match ciPrefixDrop pat (c :: rest) with
    | some rem => some rem
    | none => findCiDrop pat rest

/-- Matcher for the figure pattern of lines 422-425: the figure opener,
whitespace, either a markdown image whose nonempty path is captured or an
inline img tag, whitespace, a figcaption element whose text is captured,
then the earliest figure closer.  Each greedy character class here is
followed by a character it excludes, and the two alternatives start with
distinct characters, so the backtracking semantics collapse to this
deterministic matcher.  Returns the groups and the remainder. -/
def figMatchAt (l : List Char) : Option (FigMatch × List Char) :=
  match ciPrefixDrop "<figure>".data l with
  | none => none
  | some l1 =>
    let l2 := l1.dropWhile isPyWs
    let branch : Option (Option (List Char) × List Char) :=
      match ciPrefixDrop "![](".data l2 with
      | some l3 =>
        let p := l3.takeWhile (fun c => c ≠ ')')
        if p.length = 0 then none
        else
          match l3.drop p.length with
          | ')' :: r => some (some p, r)
          | _ => none
      | none =>
        match l2 with
        | '<' :: r1 =>
          let r2 := r1.dropWhile isPyWs
          match ciPrefixDrop "img".data r2 with
          | some r3 =>
            let q := r3.takeWhile (fun c => c ≠ '>')
            if q.length = 0 then none
            else
              match r3.drop q.length with
              | '>' :: r => some (none, r)
              | _ => none
          | none => none
        | _ => none
    match branch with
    | none => none
    | some (g1, l3) =>
      let l4 := l3.dropWhile isPyWs
      match ciPrefixDrop "<figcaption>".data l4 with
      | none => none
      | some l5 =>
        let g2 := l5.takeWhile (fun c => c ≠ '<')
        match ciPrefixDrop "</figcaption>".data (l5.drop g2.length) with
        | none => none
        | some l6 =>
          match findCiDrop "</figure>".data l6 with
          | none => none
          | some rem => some ({ g1 := g1, g2 := g2 }, rem)

/-- Scanning substitution over the figure pattern with a replacement that can
raise (the main file's replacement dereferences the possibly absent path
group).  Fuel is the scanned length. -/
def figSubGo (repl : List Char → FigMatch → Except String (List Char)) :
    Nat → List Char → Except String (List Char)
  | _, [] => .ok []
  | 0, l => .ok l
  | f + 1, c :: rest =>
    match figMatchAt (c :: rest) with
    | some (m, rem) =>
      let n := (c :: rest).length - rem.length
      match repl ((c :: rest).take n) m with
      | .error e => .error e
      | .ok out =>
        match figSubGo repl f rem with
        | .error e => .error e
        | .ok tailOut => .ok (out ++ tailOut)
    | none =>
      match figSubGo repl f rest with
      | .error e => .error e
      | .ok tailOut => .ok (c :: tailOut)

/-- Scanning substitution over the figure pattern with a total replacement
(the scripts variant). -/
def figSubGoP (repl : List Char → FigMatch → List Char) : Nat → List Char → List Char
  | _, [] => []
  | 0, l => l
  | f + 1, c :: rest =>
    match figMatchAt (c :: rest) with
    | some (m, rem) =>
      let n := (c :: rest).length - rem.length
      repl ((c :: rest).take n) m ++ figSubGoP repl f rem
    | none => c :: figSubGoP repl f rest

/-- The main file's replacement (lines 427-432): path is the first group; a
match through the img-tag alternative leaves that group as Python None and
the startswith call on it raises AttributeError, modelled as the error case.
Otherwise the path gains a relative marker unless it is already relative or
a data URI, and the result is a markdown image whose alt text is the
stripped caption. -/
def figReplMain (m : FigMatch) : Except String String :=
  match m.g1 with
  | none => .error "AttributeError: NoneType object has no attribute startswith"
  | some p =>
    let cap := pyStrip (String.mk m.g2)
    let path0 := String.mk p
    let path := if ¬strStartsWith path0 "./" ∧ ¬strStartsWith path0 "data:"
      then "./" ++ path0 else path0
    .ok ("![" ++ cap ++ "](" ++ path ++ ")")

/-- The case-sensitive search of the quoted src attribute inside the matched
figure text, used by the scripts replacement when the path group is absent:
src=, a quote, a nonempty run without quotes, a quote. -/
def searchSrcQuoted : List Char → Option (List Char)
  | [] => none
  | c :: rest =>
    match exactPrefixDrop "src=".data (c :: rest) with
    | some (q :: r2) =>
      if q == '"' || q == '\x27' then
        let body := r2.takeWhile (fun ch => !(ch == '"' || ch == '\x27'))
        if body.length = 0 then searchSrcQuoted rest
        else
          match r2.drop body.length with
          | q2 :: _ =>
            if q2 == '"' || q2 == '\x27' then some body else searchSrcQuoted rest
          | [] => searchSrcQuoted rest
      else searchSrcQuoted rest
    | _ => searchSrcQuoted rest

/-- The scripts file's replacement (scripts lines 378-392): a missing path
group falls back to the src attribute found in the matched text or a dot;
the caption is rendered as an italicized line below the image when present
rather than as alt text. -/
def figReplScripts (matched : List Char) (m : FigMatch) : String :=
  let path0 : String :=
    match m.g1 with
    | some p => String.mk p
    | none =>
      match searchSrcQuoted matched with
      | some b => String.mk b
      | none => "."
  let cap := pyStrip (String.mk m.g2)
  let path := if path0 ≠ "" ∧ ¬strStartsWith path0 "./" ∧ ¬strStartsWith path0 "data:"
    then "./" ++ path0 else path0
  if cap ≠ "" then "![](" ++ path ++ ")\n\n*" ++ cap ++ "*"
  else "![](" ++ path ++ ")"

/-- Source _normalize_figure_to_markdown of the main file (lines 421-434). -/
def _normalize_figure_to_markdown (md : String) : Except String String :=
  match figSubGo (fun _ m => (figReplMain m).map String.data) md.data.length md.data with
  | .error e => .error e
  | .ok l => .ok (String.mk l)

/-- Source _normalize_figure_to_markdown of the scripts file (scripts lines
365-394), which is total. -/
def scriptsFigNorm (md : String) : String :=
  String.mk (figSubGoP (fun matched m => (figReplScripts matched m).data) md.data.length md.data)

/- ===== Figure-label collapsing: _collapse_figure_labels
       (scripts/ebook_to_md.py lines 397-434) ===== -/

/-- Matcher for FIG_IMG_LINE (scripts line 399): optional whitespace, an
empty-alt markdown image whose path holds no closing parenthesis, optional
whitespace, end of line. -/
def figImgLine (s : String) : Bool :=
  match exactPrefixDrop "![](".data (s.data.dropWhile isPyWs) with
  | none => false
  | some r =>
    let body := r.takeWhile (fun c => c ≠ ')')
    match r.drop body.length with
    | ')' :: rest => rest.dropWhile isPyWs = []
    | _ => false

/-- Python str.startswith on a tuple of literals. -/
def startsWithAny (s : String) (ps : List String) : Bool := ps.any (fun p => strStartsWith s p)

/-- The whitespace-run split of a stripped label line with empty parts
dropped, the effect of re.split on a whitespace class plus the truthiness
filter of scripts lines 425-427. -/
def splitPyWs (s : String) : List String :=
  ((s.data.splitOnP isPyWs).filter (fun p => p ≠ [])).map String.mk

/-- The inner label-collecting loop of scripts lines 410-428: consume blank
lines, stop at a further image line, a markup-opening line, a sentence-like
line or a long line, otherwise accumulate the whitespace-split parts.
Returns the collected labels and the unconsumed remainder. -/
def collectLabels : Nat → List String → List String → List String × List String
  | _, labels, [] => (labels, [])
  | 0, labels, rest => (labels, rest)
  | f + 1, labels, cur :: rest =>
    let s := pyStrip cur
    if s = "" then collectLabels f labels rest
    else if figImgLine cur || startsWithAny (pyStrip cur) ["#", "-", "*", "<"] then
      (labels, cur :: rest)
    else if pyContains s '。' || pyContains s '！' || pyContains s '？' then (labels, cur :: rest)
    else if s.length > 28 then (labels, cur :: rest)
    else collectLabels f (labels ++ splitPyWs s) rest

/-- The outer loop of _collapse_figure_labels (scripts lines 403-433). -/
def collapseGo : Nat → List String → List String
  | _, [] => []
  | 0, lines => lines
  | f + 1, line :: rest =>
    if figImgLine line then
      let pr := collectLabels rest.length [] rest
      line :: ((if pr.1 ≠ [] then ["（图中文字：" ++ String.intercalate "、" pr.1 ++ "）"] else [])
        ++ collapseGo f pr.2)
    else line :: collapseGo f rest

/-- Python str.split on a newline. -/
def splitLines (s : String) : List String := (s.data.splitOn '\n').map String.mk

/-- Python newline join. -/
def joinLines (ls : List String) : String := String.mk (List.intercalate ['\n'] (ls.map String.data))

/-- Source _collapse_figure_labels (scripts lines 402-434). -/
def _collapse_figure_labels (md : String) : String :=
  joinLines (collapseGo (splitLines md).length (splitLines md))

/- ===== Table substitution: _replace_tables_with_html
       (ebook_to_md.py lines 393-409) ===== -/

/-- A parsed page of the remote backend's structured result: page number,
raw text, tables. -/
structure Page where
  page_num : Int
  text : String
  tables : List PyTable

/-- The structured parse result. -/
structure ParseData where
  pages : List Page

/-- Python sorted with the page-number key (stable). -/
def sortedPages (pages : List Page) : List Page :=
  pages.mergeSort (fun a b => decide (a.page_num ≤ b.page_num))

/-- The table list of lines 394-396: tables of the pages in ascending page
order. -/
def collectTables (pd : ParseData) : List PyTable :=
  (sortedPages pd.pages).flatMap (fun p => p.tables)

/-- Index of the last newline of a list, if any. -/
def lastNewlineIdx : List Char → Option Nat
  | [] => none
  | c :: rest =>
    match lastNewlineIdx rest with
    | some j => some (j + 1)
    | none => if c == '\n' then some 0 else none

/-- The candidate closing-pipe offsets for one unit of the table pattern of
line 399, in the greedy (descending) order backtracking tries them: offsets
of a pipe at least one character into the rest of the line. -/
def pipeCandidates (line : List Char) : List Nat :=
  ((List.range line.length).filter (fun k => decide (1 ≤ k) && (line.getD k ' ' == '|'))).reverse

/-- Backtracking over the closing-pipe candidates: after the chosen closing
pipe, greedy whitespace must end at a newline (the whitespace class contains
the newline, so the unit swallows trailing blank lines up to the last newline
of the whitespace run). -/
def tryPipeCands (r0 : List Char) : List Nat → Option Nat
  | [] => none
  | k :: ks =>
    let tl := r0.drop (k + 1)
    match lastNewlineIdx (tl.takeWhile isPyWs) with
    | some j => some (1 + (k + 1) + (j + 1))
    | none => tryPipeCands r0 ks

/-- One unit of the table pattern: a pipe, a nonempty run without newlines
ending at a pipe, whitespace ending in a newline.  Returns the consumed
length. -/
def tableUnitAt (l : List Char) : Option Nat :=
  match l with
  | '|' :: r0 => tryPipeCands r0 (pipeCandidates (r0.takeWhile (fun c => c ≠ '\n')))
  | _ => none

/-- The one-or-more repetition of the unit, greedy.  Returns the total
consumed length. -/
def tableRunAt : Nat → List Char → Option Nat
  | f, l =>
    match tableUnitAt l with
    | none => none
    | some n =>
      match f with
      | 0 => some n
      | f + 1 =>
        match tableRunAt f (l.drop n) with
        | some m => some (n + m)
        | none => some n

/-- The substitution loop of lines 399-409: each matched run of table-looking
lines is replaced by the HTML of the next unconsumed parsed table plus a
newline; once the parsed tables are exhausted further runs are left
unchanged. -/
def tableSubGo (tables : List PyTable) : Nat → Nat → List Char → List Char
  | _, _, [] => []
  | 0, _, l => l
  | f + 1, idx, c :: rest =>
    match tableRunAt (c :: rest).length (c :: rest) with
    | some n =>
      if idx < tables.length then
        (_table_to_html (tables.getD idx { cells := [], matrix := [], markdown := "" })).data
          ++ '\n' :: tableSubGo tables f (idx + 1) ((c :: rest).drop n)
      else (c :: rest).take n ++ tableSubGo tables f idx ((c :: rest).drop n)
    | none => c :: tableSubGo tables f idx rest

/-- Source _replace_tables_with_html (lines 393-409). -/
def _replace_tables_with_html (md : String) (pd : ParseData) : String :=
  let tables := collectTables pd
  if tables.isEmpty then md
  else String.mk (tableSubGo tables md.data.length 0 md.data)

/-- Source _build_markdown_from_pages (lines 412-418). -/
def _build_markdown_from_pages (pages : List Page) : String :=
  String.intercalate "\n\n"
    (((sortedPages pages).filter (fun p => pyStrip p.text ≠ "")).map (fun p => pyStrip p.text))

/- ===== The normalization pipelines (main file lines 528-537, scripts file
       lines 528-538) ===== -/

/-- Python substring membership. -/
def hasSub (s pat : String) : Bool := decide (pat.data <:+: s.data)

/-- The resolver guard of line 530. -/
def imgGuard (md : String) : Bool := hasSub md "img src=" || hasSub md "img src=\""

/-- The figure guard of line 535. -/
def figGuard (md : String) : Bool := hasSub md "<figure>" || hasSub md "<figcaption>"

/-- The image-resolver step shared by both pipelines: base64 inlining or
local materialization according to the policy flag. -/
def resolverStep (inlinePolicy : Bool) (fetch : String → Except String (List Nat))
    (stemName : String) (md : String) : String :=
  if inlinePolicy then _inline_images_as_base64 fetch md
  else _inline_images_as_local fetch stemName md

/-- The normalization tail of the main file's _execute_baidu_complex (lines
528-537): table substitution when parse data is present, then the image
resolver when its substring guard fires, then figure normalization when its
guard fires.  The figure pass can raise. -/
def mainNormalize (pd : Option ParseData) (inlinePolicy : Bool)
    (fetch : String → Except String (List Nat)) (stemName : String) (md : String) :
    Except String String :=
  let md1 := match pd with
    | some p => _replace_tables_with_html md p
    | none => md
  let md2 := if imgGuard md1 then resolverStep inlinePolicy fetch stemName md1 else md1
  if figGuard md2 then _normalize_figure_to_markdown md2 else .ok md2

/-- The normalization tail of the scripts file's _execute_baidu_complex
(scripts lines 528-538): table substitution, image resolver, figure
normalization, then label collapsing unconditionally. -/
def scriptsNormalize (pd : Option ParseData) (inlinePolicy : Bool)
    (fetch : String → Except String (List Nat)) (stemName : String) (md : String) : String :=
  let md1 := match pd with
    | some p => _replace_tables_with_html md p
    | none => md
  let md2 := if imgGuard md1 then resolverStep inlinePolicy fetch stemName md1 else md1
  let md3 := if figGuard md2 then scriptsFigNorm md2 else md2
  _collapse_figure_labels md3

/-- Modelled from the spec: the pass order stated in section 4.5 of the
specification, (1) table substitution, (2) figure-markup normalization,
(3) label collapsing, (4) the Image Reference Resolver last, with each pass
guarded as in the source.  This definition follows the specification's words
and is compared against scriptsNormalize, the definition from the source. -/
def claimedNormalize (pd : Option ParseData) (inlinePolicy : Bool)
    (fetch : String → Except String (List Nat)) (stemName : String) (md : String) : String :=
  let md1 := match pd with
    | some p => _replace_tables_with_html md p
    | none => md
  let md2 := if figGuard md1 then scriptsFigNorm md1 else md1
  let md3 := _collapse_figure_labels md2
  if imgGuard md3 then resolverStep inlinePolicy fetch stemName md3 else md3

/- ===== Remote Task Orchestrator: _execute_baidu_complex
       (ebook_to_md.py lines 470-537) ===== -/

/-- Python truthiness of an optional string: present and nonempty. -/
def optTruthy (o : Option String) : Bool :=
  match o with
  | some s => s != ""
  | none => false

/-- Index of the last occurrence of a character. -/
def lastIdxOf (ch : Char) : List Char → Option Nat
  | [] => none
  | c :: rest =>
    match lastIdxOf ch rest with
    | some j => some (j + 1)
    | none => if c == ch then some 0 else none

/-- The final path component, Python pathlib name. -/
def pathName (s : String) : List Char := (s.data.splitOn '/').getLastD []

/-- Python pathlib suffix: the extension of the final component, empty for
names whose only dot is leading or trailing. -/
def pathSuffix (s : String) : String :=
  let name := pathName s
  match lastIdxOf '.' name with
  | some i => if 0 < i ∧ i + 1 < name.length then String.mk (name.drop i) else ""
  | none => ""

/-- Python pathlib stem: the final component without its suffix. -/
def pathStem (s : String) : String :=
  let name := pathName s
  match lastIdxOf '.' name with
  | some i => if 0 < i ∧ i + 1 < name.length then String.mk (name.take i) else String.mk name
  | none => String.mk name

/-- Python pathlib with_suffix: the path with the final component's suffix
replaced (the usual case of a nonempty final component). -/
def withSuffix (s suf : String) : String :=
  String.mk (s.data.take (s.data.length - (pathName s).length)) ++ pathStem s ++ suf

/-- One status-query response of the remote backend, the fields of the result
dictionary the source reads.  A missing key is none; the empty string is a
present value (dict.get with a default distinguishes the two). -/
structure QueryResult where
  status : Option String := none
  task_error : Option String := none
  markdown_url : Option String := none
  parse_result_url : Option String := none

/-- How the polling loop of lines 495-506 ends: an early return with an error
string (query exception or failed status), or falling through to the code
after the loop with the break-or-exhaustion status and result. -/
inductive LoopExit
  | earlyReturn (s : String)
  | finished (status : Option String) (result : QueryResult)

/-- The polling loop of lines 490-506: max_wait 120, poll_interval 5, elapsed
accumulated after each sleep; a query exception returns the error; a failed
status returns the parse-failure message with the task_error value defaulting
to the unknown-error text only when the key is absent; a success status
breaks; otherwise poll again.  The query oracle is indexed by the call
number k. -/
def pollLoop (query : Nat → Except String QueryResult) (k elapsed : Nat)
    (status : Option String) (result : QueryResult) : LoopExit :=
  if elapsed < 120 then
    match query k with
    | .error e => .earlyReturn ("错误: " ++ e)
    | .ok r =>
      if r.status = some "success" then .finished r.status r
      else if r.status = some "failed" then
        .earlyReturn ("错误: 文档解析失败: " ++ r.task_error.getD "未知错误")
      else pollLoop query (k + 1) (elapsed + 5) r.status r
  else .finished status result
termination_by 120 - elapsed

/-- The external collaborators of _execute_baidu_complex: file existence,
token acquisition, task submission (indexed by call number; the source
submits exactly once), status queries (indexed by call number), the two
result downloads, and the image fetch used by the resolver passes.  An
Except.error models a raised requests or runtime exception rendered through
str(e). -/
structure BaiduEnv where
  fileExists : Bool
  accessToken : Option String
  submit : Nat → Except String String
  query : Nat → Except String QueryResult
  downloadParse : Except String ParseData
  downloadMd : Except String String
  fetch : String → Except String (List Nat)

/-- The _BaiduComplexConfig fields the control flow reads (the api keys live
behind the accessToken oracle). -/
structure BaiduCfg where
  file_path : String
  output_path : Option String := none
  inline_images : Bool := false

/-- Source _execute_baidu_complex (lines 478-537).  The returned value is
Except: ok is the Python return value (which is an error-marker string on the
internal failure paths), error is an exception escaping the function (only
the figure-normalization pass can raise here; directory creation and file
writes are out-of-scope filesystem effects assumed to succeed). -/
def _execute_baidu_complex (env : BaiduEnv) (cfg : BaiduCfg) : Except String String :=
  if ¬env.fileExists then .ok ("错误: 文件不存在: " ++ cfg.file_path)
  else
    let outputPathStr :=
      if optTruthy cfg.output_path then cfg.output_path.getD ""
      else withSuffix cfg.file_path ".md"
    if ¬optTruthy env.accessToken then .ok "错误: 无法获取访问令牌，请检查 API 密钥"
    else
      match env.submit 0 with
      | .error e => .ok ("错误: " ++ e)
      | .ok task_id =>
        match pollLoop env.query 0 0 none {} with
        | .earlyReturn s => .ok s
        | .finished status result =>
          if status ≠ some "success" then .ok "错误: 超时，任务未在 120 秒内完成"
          else
            let parse_data : Option ParseData :=
              if optTruthy result.parse_result_url then
                match env.downloadParse with
                | .ok pd => some pd
                | .error _ => none
              else none
            let md0 : Option String :=
              if optTruthy result.markdown_url then
                match env.downloadMd with
                | .ok s => some s
                | .error _ => none
              else none
            let mdOpt : Option String :=
              match md0 with
              | some s => if pyStrip s = "" then none else some s
              | none => none
            match mdOpt, parse_data with
            | none, none => .ok "错误: 无法获取解析结果"
            | none, some pd =>
              mainNormalize (some pd) cfg.inline_images env.fetch (pathStem outputPathStr)
                (_build_markdown_from_pages pd.pages)
            | some md, _ =>
              mainNormalize parse_data cfg.inline_images env.fetch (pathStem outputPathStr) md

/- ===== Input-type detection and image OCR formatting
       (ebook_to_md.py lines 76-93, 210-241) ===== -/

/-- The character class of the base64-likeness pattern of lines 81 and 752. -/
def isB64Char (c : Char) : Bool := c.isAlpha || c.isDigit || c == '+' || c == '/'

/-- Anchored match of one-or-more base64 characters then equals signs to the
end (the dollar anchor also matches just before one final newline). -/
def b64Like (l : List Char) : Bool :=
  let body := l.takeWhile isB64Char
  if body.length = 0 then false
  else
    let eqs := (l.drop body.length).takeWhile (fun c => c == '=')
    let rest := l.drop (body.length + eqs.length)
    rest = [] || rest = ['\n']

/-- Source _detect_input_type (lines 76-93). -/
def _detect_input_type (input_path : String) : String :=
  if input_path = "" then ""
  else
    let s := pyStrip input_path
    if strStartsWith s "data:image" ∨ (s.length > 50 ∧ b64Like s.data) then "image"
    else
      let ext := (pathSuffix s).toLower
      if ext = ".pdf" then "pdf"
      else if ext = ".png" ∨ ext = ".jpeg" ∨ ext = ".jpg" then "image"
      else if ext = ".mobi" then "mobi"
      else if ext = ".epub" then "epub"
      else ""

/-- The words_result of a Baidu general-OCR response together with its error
fields; words_result holds the words value of each item. -/
structure OcrApiResult where
  error_code : Option Int := none
  error_msg : Option String := none
  words_result : List String := []

/-- Source _extract_text_from_baidu_result (lines 210-216). -/
def _extract_text_from_baidu_result (r : OcrApiResult) : String :=
  if r.error_code.isSome ∧ r.error_code.getD 0 ≠ 0 then
    "OCR识别失败: " ++ r.error_msg.getD "未知错误"
  else if r.words_result.isEmpty then "未识别到文字"
  else String.intercalate "\n" r.words_result

/-- The sentence-final punctuation class of line 229. -/
def isSentEnd (c : Char) : Bool :=
  c == '。' || c == '？' || c == '！' || c == '.' || c == '?' || c == '!' || c == '：' || c == ':'

/-- Source _format_image_markdown_paragraphs (lines 219-241): promote a short
first line without sentence-final punctuation to a heading, insert a blank
line before each line opening with a left double quotation mark, and strip
the right end of the join.  (The list of split lines is never empty, so the
source's emptiness guard on it cannot fire.) -/
def _format_image_markdown_paragraphs (content : String) : String :=
  if pyStrip content = "" then content
  else
    let lines := splitLines content
    let first := pyStrip (lines.headD "")
    let headerish := (first != "") && decide (first.length ≤ 12)
      && !(!first.data.isEmpty && isSentEnd (first.data.getLastD ' '))
    let start := if headerish then 1 else 0
    let out0 : List String := if headerish then ["## " ++ first, ""] else []
    let out := (lines.drop start).foldl (fun out line =>
      if strStartsWith (pyStrip line) "“" && !out.isEmpty && (out.getLastD "" != "") then
        out ++ ["", line]
      else out ++ [line]) out0
    pyStripRight (joinLines out)

/- ===== Local PDF pipeline: _parse_tables, _insert_figure_refs, execute_pdf
       (ebook_to_md.py lines 627-706) ===== -/

/-- One separator-aware split step of the row pattern of line 656: a
whitespace run of length at least two, a single tab, or a pipe separates; a
single space stays inside the part. -/
def rowSplitGo : Nat → List Char → List Char → List (List Char)
  | _, cur, [] => [cur.reverse]
  | 0, cur, l => [cur.reverse ++ l]
  | f + 1, cur, c :: rest =>
    let wsLen := (List.takeWhile isPyWs (c :: rest)).length
    if 2 ≤ wsLen then cur.reverse :: rowSplitGo f [] ((c :: rest).drop wsLen)
    else if c == '\t' then cur.reverse :: rowSplitGo f [] rest
    else if c == '|' then cur.reverse :: rowSplitGo f [] rest
    else rowSplitGo f (c :: cur) rest

/-- The stripped nonempty parts of one line (line 656-657). -/
def rowParts (s : String) : List String :=
  ((rowSplitGo s.data.length [] s.data).map (fun p => pyStrip (String.mk p))).filter
    (fun p => p ≠ "")

/-- The numeric-ish character class of line 659. -/
def tableCellChar (c : Char) : Bool := c.isDigit || c == '～' || c == '~' || c == '-' || isPyWs c

/-- The table-row test of lines 658-660. -/
def isTableRow (parts : List String) : Bool :=
  decide (3 ≤ parts.length) && (parts.any (fun p => p.data.any tableCellChar)
    || parts.any (fun p => pyContains p '—' || pyContains p '－'))

/-- One markdown table row (lines 642-645). -/
def mdRow (row : List String) : String := "| " ++ String.intercalate " | " row ++ " |\n"

/-- The _flush_table closure (lines 632-646). -/
def flushTable (buf : List (List String)) : List String :=
  if buf.length < 2 then buf.map (fun row => String.intercalate " " row)
  else
    let colCount := (buf.map List.length).foldl max 0
    let padded := buf.map (fun row => row ++ List.replicate (colCount - row.length) "")
    [pyStripRight (mdRow (padded.headD []) ++ mdRow (List.replicate colCount "---")
      ++ String.join ((padded.drop 1).map mdRow))]

/-- The main loop of _parse_tables (lines 648-669). -/
def parseTablesGo : List String → List (List String) → List String → List String
  | [], buf, output => output ++ (if buf.isEmpty then [] else flushTable buf)
  | line :: rest, buf, output =>
    let stripped := pyStrip line
    if stripped = "" then
      parseTablesGo rest [] (output ++ (if buf.isEmpty then [] else flushTable buf) ++ [""])
    else
      let parts := rowParts stripped
      if isTableRow parts then parseTablesGo rest (buf ++ [parts]) output
      else parseTablesGo rest []
        (output ++ (if buf.isEmpty then [] else flushTable buf) ++ [stripped])

/-- Source _parse_tables (lines 627-670). -/
def _parse_tables (text : String) : String :=
  String.intercalate "\n" (parseTablesGo (splitLines (pyStrip text)) [] [])

/-- Matcher for the figure-reference pattern of lines 676-679 at one
position: an optional opening parenthesis, whitespace, the marker glyph,
whitespace, the literal caption number, whitespace, an optional closing
parenthesis; returns the consumed (group) length. -/
def figRefMatchAt (num : List Char) (l : List Char) : Option Nat :=
  let pr1 : Nat × List Char :=
    match l with
    | c :: rest => if c == '（' || c == '(' then (1, rest) else (0, l)
    | [] => (0, l)
  let ws1 := pr1.2.takeWhile isPyWs
  match pr1.2.drop ws1.length with
  | '图' :: l3 =>
    let ws2 := l3.takeWhile isPyWs
    match exactPrefixDrop num (l3.drop ws2.length) with
    | none => none
    | some l5 =>
      let ws3 := l5.takeWhile isPyWs
      let close : Nat :=
        match l5.drop ws3.length with
        | c :: _ => if c == ')' || c == '）' then 1 else 0
        | [] => 0
      some (pr1.1 + ws1.length + 1 + ws2.length + num.length + ws3.length + close)
  | _ => none

/-- The count-one substitution of lines 683-686: the first occurrence keeps
its text and gains the image reference right after it. -/
def figRefSubOnce (num rel : List Char) : Nat → List Char → List Char
  | _, [] => []
  | 0, l => l
  | f + 1, c :: rest =>
    match figRefMatchAt num (c :: rest) with
    | some n =>
      (c :: rest).take n
        ++ ("\n\n![图" ++ String.mk num ++ "](" ++ String.mk rel ++ ")\n\n").data
        ++ (c :: rest).drop n
    | none => c :: figRefSubOnce num rel f rest

/-- Source _insert_figure_refs (lines 672-687). -/
def _insert_figure_refs (markdown : String) (figures : List (String × String)) : String :=
  if figures.isEmpty then markdown
  else figures.foldl (fun md pr =>
    String.mk (figRefSubOnce pr.1.data pr.2.data md.data.length md.data)) markdown

/-- The external calls of the local PDF pipeline: the page texts of
_ocr_pages and the per-page OCR token data plus page-image dimensions that
feed _extract_figures.  An error is a raised exception. -/
structure LocalEnv where
  ocrPages : Except String (List String)
  figPages : Except String (List (OcrData × Int × Int))

/-- The response dictionary shared by execute_pdf and _EbookToMdImpl.execute:
only the keys the callers read. -/
structure ExecResult where
  success : Bool
  error : Option String := none
  markdown : Option String := none
  content : Option String := none
  output_format : Option String := none
  message : Option String := none
  output_path : Option String := none
  page_count : Option Nat := none
  figure_count : Option Nat := none

/-- Source _LocalPdfOcrImpl.execute_pdf (lines 689-706). -/
def execute_pdf (env : LocalEnv) (pdf_path : String) (output_path : Option String) :
    Except String ExecResult :=
  match env.ocrPages with
  | .error e => .error e
  | .ok texts =>
    let full_text := String.intercalate "\n\n" texts
    let page_count := texts.length
    if pyStrip full_text = "" then
      .ok { success := false, error := some "OCR 未识别到文字", page_count := some page_count }
    else
      let output_stem :=
        if optTruthy output_path then withSuffix (output_path.getD "") ""
        else withSuffix pdf_path ""
      match env.figPages with
      | .error e => .error e
      | .ok pages =>
        let figures := _extract_figures pages (pathStem output_stem)
        let markdown := pyStrip (_insert_figure_refs (_parse_tables full_text) figures)
        .ok { success := true, markdown := some markdown, page_count := some page_count,
              figure_count := some figures.length }

/- ===== Main router: _EbookToMdImpl.execute and run
       (ebook_to_md.py lines 732-896) ===== -/

/-- The external collaborators of the router: file existence, the ebook
converter, image reading, the two OCR backends, the remote orchestrator's
environment, the local PDF environment, markdown-to-HTML rendering, the file
write (with its directory creation), and path resolution.  An Except.error
is a raised exception rendered through str(e); the distinguished message
ImportError stands for a raised ImportError, which run handles with its own
fixed text. -/
structure ExecEnv where
  fileExists : String → Bool
  convertEbook : Except String String
  readImage : Option String
  ocrApi : OcrApiResult
  ocrImageLocal : Except String String
  baidu : BaiduEnv
  localPdf : LocalEnv
  mdToHtml : String → Except String String
  writeOk : Except String Unit
  resolvedPath : String → String

/-- The output stage of execute (lines 815-844): render HTML when requested,
write the file when an output path is given (normalizing its extension), and
build the success response. -/
def finishExec (env : ExecEnv) (markdown : String) (output_path : Option String)
    (output_format : String) (pc fc : Option Nat) : Except String ExecResult :=
  match (if output_format = "html" then (env.mdToHtml markdown).map (fun h => (h, ".html"))
         else .ok (markdown, ".md")) with
  | .error e => .error e
  | .ok pr =>
    match ((match output_path with
           | some op =>
             if op ≠ "" then
               let out := if (pathSuffix op).toLower ≠ ".md" ∧ (pathSuffix op).toLower ≠ ".html"
                 then withSuffix op pr.2 else op
               match env.writeOk with
               | .error e => .error e
               | .ok _ => .ok (some (env.resolvedPath out))
             else .ok (none : Option String)
           | none => .ok (none : Option String)) : Except String (Option String)) with
    | .error e => .error e
    | .ok written =>
      .ok { success := true, markdown := some markdown, content := some pr.1,
            output_format := some output_format, message := some "转换成功",
            output_path := written, page_count := pc, figure_count := fc }

/-- The image-branch continuation of lines 785-788. -/
def imageFinish (env : ExecEnv) (content : String) (output_path : Option String)
    (output_format : String) : Except String ExecResult :=
  let content := pyStrip content
  if content = "" then .ok { success := false, error := some "未识别到文字" }
  else finishExec env (_format_image_markdown_paragraphs content) output_path output_format
    none none

/-- Source _EbookToMdImpl.execute (lines 735-851), called from run with the
explicit keyword arguments of lines 875-881, under which its own parameter
re-extraction is the identity.  The temporary PDF removal of the finally
block is a filesystem effect. -/
def executeImpl (env : ExecEnv) (input_path0 : String) (output_path : Option String)
    (output_format ocr_backend : String) (inline_images : Bool) : Except String ExecResult :=
  if input_path0 = "" then .ok { success := false, error := some "input_path 不能为空" }
  else
    let input_type0 := _detect_input_type input_path0
    if input_type0 = "" then
      .ok { success := false, error := some "不支持的格式，请使用 pdf/png/jpeg/mobi/epub" }
    else
      let is_path := ¬(strStartsWith input_path0 "data:"
        ∨ (input_path0.length > 50 ∧ b64Like input_path0.data))
      if is_path ∧ ¬env.fileExists input_path0 then
        .ok { success := false, error := some ("文件不存在: " ++ input_path0) }
      else
        match (if input_type0 = "mobi" ∨ input_type0 = "epub"
               then (env.convertEbook).map (fun p => (p, "pdf"))
               else .ok (input_path0, input_type0)) with
        | .error e => .ok { success := false, error := some e }
        | .ok conv =>
          let input_path := conv.1
          let input_type := conv.2
          if input_type = "image" then
            if ocr_backend = "baidu" then
              match env.readImage with
              | none => .ok { success := false, error := some "无法读取图片" }
              | some _ =>
                let result := env.ocrApi
                let text := _extract_text_from_baidu_result result
                if result.error_code.isSome ∧ result.error_code.getD 0 ≠ 0 then
                  .ok { success := false, error := some text }
                else imageFinish env text output_path output_format
            else
              match env.ocrImageLocal with
              | .error e => .error e
              | .ok content => imageFinish env content output_path output_format
          else if input_type = "pdf" then
            if ocr_backend = "baidu" then
              match _execute_baidu_complex env.baidu
                  { file_path := input_path, output_path := output_path,
                    inline_images := inline_images } with
              | .error e => .error e
              | .ok md_content =>
                if strStartsWith md_content "错误:" then
                  .ok { success := false, error := some md_content }
                else finishExec env md_content output_path output_format none none
          else
              match execute_pdf env.localPdf input_path output_path with
              | .error e => .error e
              | .ok lr =>
                if ¬lr.success then .ok lr
                else finishExec env (lr.markdown.getD "") output_path output_format
                  lr.page_count lr.figure_count
          else .ok { success := false, error := some "不支持的输入类型" }

/-- The optional parameters dictionary a caller can pass to run. -/
structure RunParams where
  input_path : Option String := none
  output_path : Option String := none
  output_format : Option String := none
  ocr_backend : Option String := none
  inline_images : Option Bool := none

/-- Python x or y over an optional string (None and the empty string are
falsy). -/
def orElseStr (o : Option String) (d : String) : String :=
  match o with
  | some s => if s ≠ "" then s else d
  | none => d

/-- The body of run after argument coalescing (lines 871-896): reject an
empty input path, and convert the execute result — or any exception it
raises — into a single returned string: an error-marker prefix for every
failure, the success-marker text with the optional written-path note and
preview for success. -/
def runCore (env : ExecEnv) (input_path : String) (output_path : Option String)
    (output_format ocr_backend : String) (inline_images : Bool) : String :=
  if input_path = "" then "错误: input_path 不能为空"
  else
    match executeImpl env input_path output_path output_format ocr_backend inline_images with
    | .ok result =>
      if result.success then
        if (match result.content with
            | some c => c
            | none => result.markdown.getD "") ≠ "" then
          ("转换成功" ++ (match result.output_path with
            | some op => if op ≠ "" then "，已写入: " ++ op else ""
            | none => ""))
            ++ ("\n\n预览:\n"
              ++ (pyStrip ((match result.content with
                    | some c => c
                    | none => result.markdown.getD "").take 500)
                ++ (if (match result.content with
                        | some c => c
                        | none => result.markdown.getD "").length > 500 then "..." else "")))
        else
          "转换成功" ++ (match result.output_path with
            | some op => if op ≠ "" then "，已写入: " ++ op else ""
            | none => "")
      else "错误: " ++ (result.error.getD (result.message.getD "转换失败"))
    | .error e =>
      if e = "ImportError" then "错误: 请安装依赖: pip install pymupdf pytesseract Pillow requests"
      else "错误: " ++ e

/-- Source run (lines 854-896): coalesce the parameters dictionary over the
keyword arguments (Python or, with None and the empty string falsy, and
dict.get with a default for the boolean flag) and run the core body. -/
def run (env : ExecEnv) (input_path1 : String) (output_path1 : Option String)
    (output_format1 ocr_backend1 : String) (inline_images1 : Bool)
    (params : Option RunParams) : String :=
  let p := params.getD {}
  runCore env (orElseStr p.input_path input_path1)
    (match p.output_path with
     | some s => if s ≠ "" then some s else output_path1
     | none => output_path1)
    ((orElseStr p.output_format (if output_format1 ≠ "" then output_format1 else "md")).toLower)
    ((orElseStr p.ocr_backend (if ocr_backend1 ≠ "" then ocr_backend1 else "baidu")).toLower)
    (p.inline_images.getD inline_images1)

/- ===================================================================== -/
/- ========================== Theorems ================================= -/
/- ===================================================================== -/

/-- C3 counterexample: a caption token at the bottom of a 200 by 100 page
image yields a crop whose bottom coordinate 115 exceeds the page image
height 100, so not all four crop coordinates are clamped to the page image
bounds as the claim states. -/
theorem c3_counterexample :
    processToken
      { text := ["图1"], left := [0], top := [95], width := [30], height := [10],
        line_num := [1] } 0 [] 200 100 =
      some ("1", { top := 0, left := 0, right := 50, bottom := 115 }) ∧
    ¬((115 : Int) ≤ 100) := by
  constructor
  · decide
  · decide

/-- C3 (amended): for every OCR caption token the figure extractor finds,
the computed crop region has top at least 0, left at least 0, and right at
most the page image width; the bottom coordinate is caption top plus height
plus 10 and is not clamped to the page image height. -/
theorem c3_crop_clamped (d : OcrData) (i : Nat) (figures : List String) (imgW imgH : Int)
    (n : String) (crop : CropRegion)
    (h : processToken d i figures imgW imgH = some (n, crop)) :
    0 ≤ crop.top ∧ 0 ≤ crop.left ∧ crop.right ≤ imgW := by
  simp only [processToken] at h
  split at h
  · exact absurd h (by simp)
  · split at h
    · exact absurd h (by simp)
    · rw [Option.some.injEq, Prod.mk.injEq] at h
      have hcrop := h.2
      subst hcrop
      exact ⟨le_max_left 0 _, le_max_left 0 _, min_le_left imgW _⟩

/-- C3 witness: the amended theorem applied at a concrete token. -/
theorem c3_crop_clamped_witness :
    processToken
      { text := ["图1"], left := [0], top := [95], width := [30], height := [10],
        line_num := [1] } 0 [] 200 100 =
      some ("1", { top := 0, left := 0, right := 50, bottom := 115 }) ∧
    (0 ≤ (0 : Int) ∧ 0 ≤ (0 : Int) ∧ (50 : Int) ≤ 200) :=
  ⟨by decide,
    c3_crop_clamped
      { text := ["图1"], left := [0], top := [95], width := [30], height := [10],
        line_num := [1] } 0 [] 200 100 "1"
      { top := 0, left := 0, right := 50, bottom := 115 } (by decide)⟩

/-- Helper: the polling loop returns the parse-failure message when the
first j queries are non-terminal within the budget and the next reports a
failed status. -/
theorem pollLoop_fail (query : Nat → Except String QueryResult) :
    ∀ (j k elapsed : Nat) (st : Option String) (res : QueryResult) (r : QueryResult),
      elapsed + 5 * j < 120 →
      (∀ i, i < j → ∃ s, query (k + i) = .ok s ∧
        s.status ≠ some "success" ∧ s.status ≠ some "failed") →
      query (k + j) = .ok r → r.status = some "failed" →
      pollLoop query k elapsed st res =
        .earlyReturn ("错误: 文档解析失败: " ++ r.task_error.getD "未知错误") := by
  intro j
  induction j with
  | zero =>
    intro k elapsed st res r hel hpre hq hst
    rw [pollLoop]
    rw [if_pos (by omega)]
    rw [Nat.add_zero] at hq
    rw [hq]
    simp [hst]
  | succ j ih =>
    intro k elapsed st res r hel hpre hq hst
    rw [pollLoop]
    rw [if_pos (by omega)]
    obtain ⟨s, hs, hns, hnf⟩ := hpre 0 (Nat.succ_pos j)
    rw [Nat.add_zero] at hs
    rw [hs]
    simp only
    rw [if_neg hns, if_neg hnf]
    exact ih (k + 1) (elapsed + 5) s.status s r (by omega)
      (fun i hi => by
        have := hpre (i + 1) (by omega)
        rwa [show k + (i + 1) = k + 1 + i by omega] at this)
      (by rwa [show k + 1 + j = k + (j + 1) by omega]) hst

/-- C5: in the remote orchestrator, a submission that returns a task
identifier followed by non-terminal status queries and then a query
reporting the failed status makes the whole call return the parse-failure
error string (an error-marker-prefixed failure result), never a success
payload, for every task_error value including the present-but-empty one. -/
theorem c5_failed_terminates (env : BaiduEnv) (cfg : BaiduCfg) (tid : String)
    (j : Nat) (r : QueryResult)
    (hfe : env.fileExists = true)
    (htok : optTruthy env.accessToken = true)
    (hsub : env.submit 0 = .ok tid)
    (hj : j ≤ 23)
    (hpre : ∀ i, i < j → ∃ s, env.query i = .ok s ∧
      s.status ≠ some "success" ∧ s.status ≠ some "failed")
    (hq : env.query j = .ok r) (hst : r.status = some "failed") :
    _execute_baidu_complex env cfg =
      .ok ("错误: 文档解析失败: " ++ r.task_error.getD "未知错误") := by
  unfold _execute_baidu_complex
  rw [hfe, htok, hsub]
  rw [pollLoop_fail env.query j 0 0 none {} r (by omega)
    (fun i hi => by simpa using hpre i hi) (by simpa using hq) hst]
  simp

/-- C5 witness: the theorem applied to a concrete environment whose first
status query reports the failed status with a present but empty task_error,
giving the bare parse-failure error string. -/
theorem c5_failed_terminates_witness :
    _execute_baidu_complex
      { fileExists := true, accessToken := some "t", submit := fun _ => .ok "tid",
        query := fun _ => .ok { status := some "failed", task_error := some "" },
        downloadParse := .error "x", downloadMd := .error "x",
        fetch := fun _ => .error "x" }
      { file_path := "a.pdf" } = .ok ("错误: 文档解析失败: " ++ "") :=
  c5_failed_terminates _ _ "tid" 0 { status := some "failed", task_error := some "" }
    rfl rfl rfl (by omega) (fun i hi => absurd hi (by omega)) rfl rfl

/-- Helper: the polling loop falls through with a non-success status when
all 24 in-budget queries return non-terminal statuses. -/
theorem pollLoop_timeout (query : Nat → Except String QueryResult) :
    ∀ (f k : Nat) (st : Option String) (res : QueryResult),
      k + f = 24 →
      (k = 24 → st ≠ some "success") →
      (∀ i, k ≤ i → i < 24 → ∃ s, query i = .ok s ∧
        s.status ≠ some "success" ∧ s.status ≠ some "failed") →
      ∃ st2 res2, pollLoop query k (5 * k) st res = .finished st2 res2 ∧
        st2 ≠ some "success" := by
  intro f
  induction f with
  | zero =>
    intro k st res hk hst hq
    have hk24 : k = 24 := by omega
    subst hk24
    rw [pollLoop, if_neg (by omega)]
    exact ⟨st, res, rfl, hst rfl⟩
  | succ f ih =>
    intro k st res hk hst hq
    rw [pollLoop, if_pos (by omega)]
    obtain ⟨s, hs, hns, hnf⟩ := hq k (le_refl k) (by omega)
    rw [hs]
    simp only
    rw [if_neg hns, if_neg hnf]
    have h5 : 5 * k + 5 = 5 * (k + 1) := by omega
    rw [h5]
    exact ih (k + 1) s.status s (by omega) (fun _ => hns)
      (fun i hi1 hi2 => hq i (by omega) hi2)

/-- C6: if every in-budget status query returns a non-terminal status, the
orchestrator returns the timeout failure string to the caller (an ok value,
not an escaping exception), and the result only depends on the submission
oracle through its single first call, so the task is never re-submitted. -/
theorem c6_timeout (env : BaiduEnv) (cfg : BaiduCfg) (tid : String)
    (hfe : env.fileExists = true)
    (htok : optTruthy env.accessToken = true)
    (hsub : env.submit 0 = .ok tid)
    (hq : ∀ i, i < 24 → ∃ s, env.query i = .ok s ∧
      s.status ≠ some "success" ∧ s.status ≠ some "failed") :
    _execute_baidu_complex env cfg = .ok "错误: 超时，任务未在 120 秒内完成" ∧
    (∀ env2 : BaiduEnv, env2.fileExists = env.fileExists →
      env2.accessToken = env.accessToken → env2.submit 0 = env.submit 0 →
      env2.query = env.query →
      _execute_baidu_complex env2 cfg = .ok "错误: 超时，任务未在 120 秒内完成") := by
  have main : ∀ env3 : BaiduEnv, env3.fileExists = true →
      optTruthy env3.accessToken = true → env3.submit 0 = .ok tid →
      (∀ i, i < 24 → ∃ s, env3.query i = .ok s ∧
        s.status ≠ some "success" ∧ s.status ≠ some "failed") →
      _execute_baidu_complex env3 cfg = .ok "错误: 超时，任务未在 120 秒内完成" := by
    intro env3 hfe3 htok3 hsub3 hq3
    unfold _execute_baidu_complex
    rw [hfe3, htok3, hsub3]
    obtain ⟨st2, res2, hloop, hne⟩ := pollLoop_timeout env3.query 24 0 none {} (by omega)
      (fun h => absurd h (by omega)) (fun i _ hi2 => hq3 i hi2)
    rw [show (5 : Nat) * 0 = 0 by omega] at hloop
    rw [hloop]
    simp [hne]
  refine ⟨main env hfe htok hsub hq, ?_⟩
  intro env2 h1 h2 h3 h4
  exact main env2 (h1.trans hfe) (by rw [h2]; exact htok) (by rw [h3]; exact hsub)
    (by rw [h4]; exact hq)

/-- C6 witness: the theorem applied to a concrete environment whose queries
always report a running status. -/
theorem c6_timeout_witness :
    _execute_baidu_complex
      { fileExists := true, accessToken := some "t", submit := fun _ => .ok "tid",
        query := fun _ => .ok { status := some "running" },
        downloadParse := .error "x", downloadMd := .error "x",
        fetch := fun _ => .error "x" }
      { file_path := "a.pdf" } = .ok "错误: 超时，任务未在 120 秒内完成" :=
  (c6_timeout
    { fileExists := true, accessToken := some "t", submit := fun _ => .ok "tid",
      query := fun _ => .ok { status := some "running" },
      downloadParse := .error "x", downloadMd := .error "x",
      fetch := fun _ => .error "x" }
    { file_path := "a.pdf" } "tid" rfl rfl rfl
    (fun i hi => ⟨{ status := some "running" }, rfl, by decide, by decide⟩)).1

/-- C4 counterexample: on a document holding a figure wrapper with an inline
img tag and a caption, the source pipeline (tables, then resolver, then
figure normalization, then label collapsing) inlines the fetched image as a
data URI, while the claimed order (resolver last) rewrites the tag to a
relative path before the resolver's guard can see it; the two outputs
differ, so the pipeline does not run the Image Reference Resolver last. -/
theorem c4_counterexample :
    scriptsNormalize none true (fun u => if u = "u" then .ok [88] else .error "x") "st"
      "<figure><img src=\"u\"/><figcaption>c</figcaption></figure>" ≠
    claimedNormalize none true (fun u => if u = "u" then .ok [88] else .error "x") "st"
      "<figure><img src=\"u\"/><figcaption>c</figcaption></figure>" := by
  decide

/-- C4 (amended): the normalization pipeline applies its passes in the order
(1) table substitution, (2) the Image Reference Resolver, (3) figure-markup
normalization, (4) label collapsing (the last only in the scripts variant,
whose pipeline this equation states; the non-scripts variant is the same
composition without the final pass), so the resolver runs before figure
normalization rather than last. -/
theorem c4_pass_order (pd : Option ParseData) (inlinePolicy : Bool)
    (fetch : String → Except String (List Nat)) (stemName : String) (md : String) :
    scriptsNormalize pd inlinePolicy fetch stemName md =
      _collapse_figure_labels
        ((fun m => if figGuard m then scriptsFigNorm m else m)
          ((fun m => if imgGuard m then resolverStep inlinePolicy fetch stemName m else m)
            ((fun m => match pd with
              | some p => _replace_tables_with_html m p
              | none => m) md))) ∧
    mainNormalize pd inlinePolicy fetch stemName md =
      (fun m => if figGuard m then _normalize_figure_to_markdown m else .ok m)
        ((fun m => if imgGuard m then resolverStep inlinePolicy fetch stemName m else m)
          ((fun m => match pd with
            | some p => _replace_tables_with_html m p
            | none => m) md)) :=
  ⟨rfl, rfl⟩

/-- Helper: string append is associative. -/
theorem strAppend_assoc (a b c : String) : a ++ b ++ c = a ++ (b ++ c) := by
  cases a with
  | mk la =>
    cases b with
    | mk lb =>
      cases c with
      | mk lc =>
        show String.mk (la ++ lb ++ lc) = String.mk (la ++ (lb ++ lc))
        rw [List.append_assoc]

/-- Helper: the error-marker prefix splits off the space of the source's
format string. -/
theorem errPieces (e : String) : "错误: " ++ e = "错误:" ++ (" " ++ e) := by
  rw [← strAppend_assoc]
  rfl

/-- C10: the top-level run function always returns a string: every internal
failure (including any exception the conversion raises, which the embedding
carries in the Except error case) is converted into a string beginning with
the error marker, and every successful conversion returns a string beginning
with the success marker. -/
theorem c10_run_total (env : ExecEnv) (ip : String) (op : Option String)
    (ofmt obk : String) (inl : Bool) (params : Option RunParams) :
    (∃ t, run env ip op ofmt obk inl params = "错误:" ++ t) ∨
    (∃ t, run env ip op ofmt obk inl params = "转换成功" ++ t) := by
  have core : ∀ (a : String) (b : Option String) (c d : String) (e : Bool),
      (∃ t, runCore env a b c d e = "错误:" ++ t) ∨
      (∃ t, runCore env a b c d e = "转换成功" ++ t) := by
    intro a b c d e
    unfold runCore
    split
    · exact Or.inl ⟨" input_path 不能为空", rfl⟩
    · split
      · rename_i result heq
        split
        · rename_i hsucc
          split
          · exact Or.inr ⟨_, strAppend_assoc _ _ _⟩
          · exact Or.inr ⟨_, rfl⟩
        · exact Or.inl ⟨_, errPieces _⟩
      · rename_i e2 heq
        split
        · exact Or.inl ⟨" 请安装依赖: pip install pymupdf pytesseract Pillow requests", rfl⟩
        · exact Or.inl ⟨_, errPieces _⟩
  exact core _ _ _ _ _

/-- Helper: rebuilding a string from its character list. -/
theorem mk_data (s : String) : String.mk s.data = s := by
  cases s
  rfl

/-- Helper: the IMG_SRC substitution leaves a document without matches
unchanged. -/
theorem imgSubGo_no_match {σ : Type} (repl : σ → List Char → List Char → σ × List Char) :
    ∀ (f : Nat) (st : σ) (l : List Char),
      (∀ i, i < l.length → imgMatchAt (l.drop i) = none) →
      imgSubGo repl f st l = l := by
  intro f
  induction f with
  | zero =>
    intro st l h
    cases l with
    | nil => rfl
    | cons c rest => rfl
  | succ f ih =>
    intro st l h
    cases l with
    | nil => rfl
    | cons c rest =>
      have h0 : imgMatchAt (c :: rest) = none := by
        have := h 0 (by simp)
        simpa using this
      rw [imgSubGo, h0]
      rw [ih st rest (fun i hi => by
        have := h (i + 1) (by simpa using Nat.succ_lt_succ hi)
        simpa using this)]

/-- Helper: the figure substitution leaves a document without matches
unchanged. -/
theorem figSubGoP_no_match (repl : List Char → FigMatch → List Char) :
    ∀ (f : Nat) (l : List Char),
      (∀ i, i < l.length → figMatchAt (l.drop i) = none) →
      figSubGoP repl f l = l := by
  intro f
  induction f with
  | zero =>
    intro l h
    cases l with
    | nil => rfl
    | cons c rest => rfl
  | succ f ih =>
    intro l h
    cases l with
    | nil => rfl
    | cons c rest =>
      have h0 : figMatchAt (c :: rest) = none := by
        have := h 0 (by simp)
        simpa using this
      rw [figSubGoP, h0]
      rw [ih rest (fun i hi => by
        have := h (i + 1) (by simpa using Nat.succ_lt_succ hi)
        simpa using this)]

/-- Helper: label collapsing leaves lines without image-only lines
unchanged. -/
theorem collapseGo_no_img :
    ∀ (f : Nat) (lines : List String),
      (∀ l ∈ lines, figImgLine l = false) →
      collapseGo f lines = lines := by
  intro f
  induction f with
  | zero =>
    intro lines h
    cases lines with
    | nil => rfl
    | cons a rest => rfl
  | succ f ih =>
    intro lines h
    cases lines with
    | nil => rfl
    | cons a rest =>
      rw [collapseGo]
      rw [if_neg (by simp [h a (by simp)])]
      rw [ih rest (fun l hl => h l (by simp [hl]))]

/-- Helper: splitting a string into its newline-separated lines and joining
them back is the identity. -/
theorem joinLines_splitLines (s : String) : joinLines (splitLines s) = s := by
  unfold joinLines splitLines
  rw [List.map_map]
  have h1 : (String.data ∘ String.mk) = id := funext (fun l => rfl)
  rw [h1, List.map_id]
  rw [show List.intercalate ['\n'] (s.data.splitOn '\n') =
    ([ '\n' ].intercalate (s.data.splitOn '\n')) from rfl]
  rw [List.intercalate_splitOn]

/-- C8: the full normalization pipeline is the identity on a document body
with zero tables in the parse data, zero figure-wrapper matches, zero
embedded image-reference matches, and no image-only markdown lines. -/
theorem c8_identity (pd : Option ParseData) (inlinePolicy : Bool)
    (fetch : String → Except String (List Nat)) (stemName : String) (md : String)
    (htab : ∀ p, pd = some p → collectTables p = [])
    (himg : ∀ i, i < md.data.length → imgMatchAt (md.data.drop i) = none)
    (hfig : ∀ i, i < md.data.length → figMatchAt (md.data.drop i) = none)
    (hlab : ∀ l ∈ splitLines md, figImgLine l = false) :
    scriptsNormalize pd inlinePolicy fetch stemName md = md := by
  have hmd1 : ∀ (o : Option ParseData), (∀ p, o = some p → collectTables p = []) →
      (match o with
       | some p => _replace_tables_with_html md p
       | none => md) = md := by
    intro o ho
    cases o with
    | none => rfl
    | some p =>
      show _replace_tables_with_html md p = md
      unfold _replace_tables_with_html
      rw [ho p rfl]
      rfl
  have hres : resolverStep inlinePolicy fetch stemName md = md := by
    unfold resolverStep _inline_images_as_base64 _inline_images_as_local
    cases inlinePolicy with
    | true =>
      rw [if_pos rfl, imgSubGo_no_match _ _ _ _ himg, mk_data]
    | false =>
      rw [if_neg (by simp), imgSubGo_no_match _ _ _ _ himg, mk_data]
  have hfign : scriptsFigNorm md = md := by
    unfold scriptsFigNorm
    rw [figSubGoP_no_match _ _ _ hfig, mk_data]
  have hcoll : _collapse_figure_labels md = md := by
    unfold _collapse_figure_labels
    rw [collapseGo_no_img _ _ hlab, joinLines_splitLines]
  simp only [scriptsNormalize]
  rw [hmd1 pd htab]
  have e2 : (if imgGuard md = true then resolverStep inlinePolicy fetch stemName md else md)
      = md := by
    cases h2 : imgGuard md
    · simp
    · simpa using hres
  rw [e2]
  have e3 : (if figGuard md = true then scriptsFigNorm md else md) = md := by
    cases h3 : figGuard md
    · simp
    · simpa using hfign
  rw [e3, hcoll]

/-- C8 witness: the identity on a concrete trigger-free document. -/
theorem c8_identity_witness :
    ((∀ p, (none : Option ParseData) = some p → collectTables p = []) ∧
     (∀ i, i < ("标题\n\n正文 图 1 说明\n结束" : String).data.length →
       imgMatchAt (("标题\n\n正文 图 1 说明\n结束" : String).data.drop i) = none) ∧
     (∀ i, i < ("标题\n\n正文 图 1 说明\n结束" : String).data.length →
       figMatchAt (("标题\n\n正文 图 1 说明\n结束" : String).data.drop i) = none) ∧
     (∀ l ∈ splitLines "标题\n\n正文 图 1 说明\n结束", figImgLine l = false)) ∧
    scriptsNormalize none true (fun _ => .error "x") "st" "标题\n\n正文 图 1 说明\n结束" =
      "标题\n\n正文 图 1 说明\n结束" :=
  ⟨⟨(fun p h => nomatch h), ⟨by decide, ⟨by decide, by decide⟩⟩⟩,
    c8_identity none true (fun _ => .error "x") "st" "标题\n\n正文 图 1 说明\n结束"
      (fun p h => nomatch h) (by decide) (by decide) (by decide)⟩

/-- Helper: a successful case-insensitive literal drop yields a suffix. -/
theorem ciPrefixDrop_suffix :
    ∀ (pat l r : List Char), ciPrefixDrop pat l = some r → r <:+ l := by
  intro pat
  induction pat with
  | nil =>
    intro l r h
    simp only [ciPrefixDrop] at h
    rw [Option.some.injEq] at h
    subst h
    exact List.suffix_refl l
  | cons p ps ih =>
    intro l r h
    cases l with
    | nil => exact absurd h (by simp [ciPrefixDrop])
    | cons c cs =>
      simp only [ciPrefixDrop] at h
      split at h
      · exact (ih cs r h).trans (List.suffix_cons c cs)
      · exact absurd h (by simp)

/-- Helper: the optional-quote step yields a suffix. -/
theorem optQuoteDrop_suffix (l : List Char) : optQuoteDrop l <:+ l := by
  unfold optQuoteDrop
  split
  · exact List.tail_suffix l
  · exact List.suffix_refl l

/-- Helper: the optional-slash step yields a suffix. -/
theorem optSlashDrop_suffix (l : List Char) : optSlashDrop l <:+ l := by
  unfold optSlashDrop
  split
  · exact List.tail_suffix l
  · exact List.suffix_refl l

/-- Helper: the remainder of an IMG_SRC match is strictly shorter than the
scanned list. -/
theorem imgMatchAt_rem_lt (l url rem : List Char) (h : imgMatchAt l = some (url, rem)) :
    rem.length < l.length := by
  simp only [imgMatchAt] at h
  split at h
  · exact absurd h (by simp)
  · rename_i l1 h1
    split at h
    · exact absurd h (by simp)
    · split at h
      · exact absurd h (by simp)
      · rename_i l3 h3
        split at h
        · exact absurd h (by simp)
        · split at h
          · rename_i rem0 hm
            rw [Option.some.injEq, Prod.mk.injEq] at h
            have hsuf : '>' :: rem0 <:+ l := by
              have s0 : ('>' :: rem0 : List Char) <:+
                  optSlashDrop ((optQuoteDrop ((optQuoteDrop l3).drop
                    ((optQuoteDrop l3).takeWhile isUrlChar).length)).dropWhile isPyWs) := by
                rw [hm]
              have s1 := optSlashDrop_suffix ((optQuoteDrop ((optQuoteDrop l3).drop
                ((optQuoteDrop l3).takeWhile isUrlChar).length)).dropWhile isPyWs)
              have s2 := List.dropWhile_suffix (l := (optQuoteDrop ((optQuoteDrop l3).drop
                ((optQuoteDrop l3).takeWhile isUrlChar).length))) isPyWs
              have s3 := optQuoteDrop_suffix ((optQuoteDrop l3).drop
                ((optQuoteDrop l3).takeWhile isUrlChar).length)
              have s4 := List.drop_suffix ((optQuoteDrop l3).takeWhile isUrlChar).length
                (optQuoteDrop l3)
              have s5 := optQuoteDrop_suffix l3
              have s6 := ciPrefixDrop_suffix _ _ _ h3
              have s7 := List.drop_suffix (l1.takeWhile isPyWs).length l1
              have s8 := ciPrefixDrop_suffix _ _ _ h1
              exact s0.trans (s1.trans (s2.trans (s3.trans (s4.trans (s5.trans
                (s6.trans (s7.trans s8)))))))
            have hle := hsuf.length_le
            have : rem = rem0 := h.2.symm ▸ rfl
            subst this
            simp only [List.length_cons] at hle
            omega
          · exact absurd h (by simp)

/-- Helper: the scanning substitution equals the segment-based rebuild. -/
theorem imgSubGo_eq_rebuild {σ : Type} (repl : σ → List Char → List Char → σ × List Char) :
    ∀ (f : Nat) (st : σ) (l : List Char), l.length ≤ f →
      imgSubGo repl f st l = rebuildImg repl st (imgSegsGo f l).1 (imgSegsGo f l).2 := by
  intro f
  induction f with
  | zero =>
    intro st l hf
    have : l = [] := List.length_eq_zero.mp (by omega)
    subst this
    rfl
  | succ f ih =>
    intro st l hf
    cases l with
    | nil => rfl
    | cons c rest =>
      cases hm : imgMatchAt (c :: rest) with
      | some pr =>
        obtain ⟨url, rem⟩ := pr
        have hrem : rem.length < (c :: rest).length := imgMatchAt_rem_lt _ _ _ hm
        rw [imgSubGo, hm]
        simp only [imgSegsGo, hm]
        rw [rebuildImg]
        simp only [List.nil_append]
        rw [ih (repl st ((c :: rest).take ((c :: rest).length - rem.length)) url).1 rem
          (by simp only [List.length_cons] at hrem hf; omega)]
      | none =>
        rw [imgSubGo, hm]
        simp only [imgSegsGo, hm]
        have hr := ih st rest (by simp at hf ⊢; omega)
        cases hsg : imgSegsGo f rest with
        | mk segs tl =>
          cases segs with
          | nil =>
            rw [hsg] at hr
            simp only [rebuildImg] at hr
            rw [hr]
            rfl
          | cons s0 segs2 =>
            obtain ⟨g, m, u⟩ := s0
            rw [hsg] at hr
            simp only [rebuildImg] at hr ⊢
            rw [hr]
            simp [rebuildImg]

/-- Helper: the rebuild is the flattening of the gaps zipped with the
replacement outputs, followed by the trailing gap. -/
theorem rebuildImg_eq_zipWith {σ : Type} (repl : σ → List Char → List Char → σ × List Char) :
    ∀ (segs : List (List Char × List Char × List Char)) (st : σ) (tl : List Char),
      rebuildImg repl st segs tl =
        (List.zipWith (fun seg out => seg.1 ++ out) segs (replOuts repl st segs)).flatten
          ++ tl := by
  intro segs
  induction segs with
  | nil => intro st tl; rfl
  | cons s0 segs2 ih =>
    intro st tl
    obtain ⟨g, m, u⟩ := s0
    rw [rebuildImg, replOuts]
    simp only [List.zipWith_cons_cons, List.flatten_cons]
    rw [ih]
    simp [List.append_assoc]

/-- Helper: there are as many replacement outputs as segments. -/
theorem replOuts_length {σ : Type} (repl : σ → List Char → List Char → σ × List Char) :
    ∀ (segs : List (List Char × List Char × List Char)) (st : σ),
      (replOuts repl st segs).length = segs.length := by
  intro segs
  induction segs with
  | nil => intro st; rfl
  | cons s0 segs2 ih => intro st; simp [replOuts, ih]

/-- Helper: each replacement output is the replacement of its segment's
matched text and URL at some threaded state. -/
theorem replOuts_getD {σ : Type} (repl : σ → List Char → List Char → σ × List Char) :
    ∀ (segs : List (List Char × List Char × List Char)) (st : σ) (j : Nat),
      j < segs.length →
      ∃ st2, (replOuts repl st segs).getD j [] =
        (repl st2 (segs.getD j ([], [], [])).2.1 (segs.getD j ([], [], [])).2.2).2 := by
  intro segs
  induction segs with
  | nil => intro st j hj; exact absurd hj (by simp)
  | cons s0 segs2 ih =>
    intro st j hj
    cases j with
    | zero => exact ⟨st, rfl⟩
    | succ j =>
      obtain ⟨st2, hst2⟩ := ih (repl st s0.2.1 s0.2.2).1 j (by simpa using hj)
      exact ⟨st2, by simpa [replOuts] using hst2⟩

/-- C7: for every document body whose image-reference segmentation has the
fetch of exactly one reference failing, both inlining policies return the
document with every other reference replaced (an inlined data URI under the
base64 policy, a sequentially numbered local reference under the local
policy) and with the failing reference alone kept as its original matched
text with the visible download-failure annotation appended; the whole
transformation is a total function of the environment, so the fetch failure
never aborts it. -/
theorem c7_fetch_failure_contained (md : String) (fetch : String → Except String (List Nat))
    (stemName : String) (segs : List (List Char × List Char × List Char)) (tl : List Char)
    (k : Nat) (errMsg : String)
    (hsegs : imgRefSegments md.data = (segs, tl))
    (hk : k < segs.length)
    (hfail : fetch (pyStrip (String.mk (segs.getD k ([], [], [])).2.2)) = .error errMsg)
    (hok : ∀ j, j < segs.length → j ≠ k →
      ∃ raw, fetch (pyStrip (String.mk (segs.getD j ([], [], [])).2.2)) = .ok raw) :
    ∃ outsB outsL,
      (_inline_images_as_base64 fetch md).data =
        (List.zipWith (fun seg out => seg.1 ++ out) segs outsB).flatten ++ tl ∧
      (_inline_images_as_local fetch stemName md).data =
        (List.zipWith (fun seg out => seg.1 ++ out) segs outsL).flatten ++ tl ∧
      outsB.length = segs.length ∧ outsL.length = segs.length ∧
      outsB.getD k [] =
        (segs.getD k ([], [], [])).2.1 ++ ("  <!-- 下载失败: " ++ errMsg ++ " -->").data ∧
      outsL.getD k [] =
        (segs.getD k ([], [], [])).2.1 ++ ("  <!-- 下载失败: " ++ errMsg ++ " -->").data ∧
      (∀ j, j < segs.length → j ≠ k → ∃ raw,
        fetch (pyStrip (String.mk (segs.getD j ([], [], [])).2.2)) = .ok raw ∧
        outsB.getD j [] = "![](".data ++ dataUriOf raw ++ [')'] ∧
        ∃ idx : Nat, outsL.getD j [] =
          ("![](" ++ (("./" ++ (stemName ++ "_images") ++ "/")
            ++ (toString idx ++ mimeExt (_detect_image_mime raw))) ++ ")").data) := by
  refine ⟨replOuts (b64Repl fetch) () segs,
    replOuts (localRepl fetch ("./" ++ (stemName ++ "_images") ++ "/")) 0 segs, ?_, ?_, ?_, ?_,
    ?_, ?_, ?_⟩
  · unfold _inline_images_as_base64
    rw [imgSubGo_eq_rebuild _ md.data.length () md.data (le_refl _)]
    rw [show imgSegsGo md.data.length md.data = (segs, tl) from hsegs]
    rw [rebuildImg_eq_zipWith]
  · unfold _inline_images_as_local
    rw [imgSubGo_eq_rebuild _ md.data.length 0 md.data (le_refl _)]
    rw [show imgSegsGo md.data.length md.data = (segs, tl) from hsegs]
    rw [rebuildImg_eq_zipWith]
  · exact replOuts_length _ segs ()
  · exact replOuts_length _ segs 0
  · obtain ⟨st2, hst2⟩ := replOuts_getD (b64Repl fetch) segs () k hk
    rw [hst2]
    unfold b64Repl
    rw [hfail]
  · obtain ⟨st2, hst2⟩ := replOuts_getD (localRepl fetch ("./" ++ (stemName ++ "_images") ++ "/"))
      segs 0 k hk
    rw [hst2]
    unfold localRepl
    rw [hfail]
  · intro j hj hjk
    obtain ⟨raw, hraw⟩ := hok j hj hjk
    obtain ⟨st2, hst2⟩ := replOuts_getD (b64Repl fetch) segs () j hj
    obtain ⟨st3, hst3⟩ := replOuts_getD (localRepl fetch ("./" ++ (stemName ++ "_images") ++ "/"))
      segs 0 j hj
    refine ⟨raw, hraw, ?_, st3, ?_⟩
    · rw [hst2]
      unfold b64Repl
      rw [hraw]
    · rw [hst3]
      unfold localRepl
      rw [hraw]

/-- C7 witness: three references with the middle fetch failing, applied to
the containment theorem. -/
theorem c7_fetch_failure_contained_witness :
    (imgRefSegments ("a <img src=\"u1\"> b <img src=\"u2\"> c <img src=\"u3\"> d" : String).data =
      ([("a ".data, "<img src=\"u1\">".data, "u1".data),
        (" b ".data, "<img src=\"u2\">".data, "u2".data),
        (" c ".data, "<img src=\"u3\">".data, "u3".data)], " d".data) ∧
     (1 : Nat) < 3 ∧
     (fun u => if u = "u1" then Except.ok [88] else if u = "u3" then Except.ok ([66, 77] : List Nat)
       else Except.error "超时") (pyStrip (String.mk "u2".data)) = Except.error "超时") ∧
    (∃ outsB outsL,
      (_inline_images_as_base64
        (fun u => if u = "u1" then Except.ok [88] else if u = "u3" then Except.ok ([66, 77] : List Nat)
          else Except.error "超时")
        "a <img src=\"u1\"> b <img src=\"u2\"> c <img src=\"u3\"> d").data =
        (List.zipWith (fun seg out => seg.1 ++ out)
          [("a ".data, "<img src=\"u1\">".data, "u1".data),
           (" b ".data, "<img src=\"u2\">".data, "u2".data),
           (" c ".data, "<img src=\"u3\">".data, "u3".data)] outsB).flatten ++ " d".data ∧
      (_inline_images_as_local
        (fun u => if u = "u1" then Except.ok [88] else if u = "u3" then Except.ok ([66, 77] : List Nat)
          else Except.error "超时") "doc"
        "a <img src=\"u1\"> b <img src=\"u2\"> c <img src=\"u3\"> d").data =
        (List.zipWith (fun seg out => seg.1 ++ out)
          [("a ".data, "<img src=\"u1\">".data, "u1".data),
           (" b ".data, "<img src=\"u2\">".data, "u2".data),
           (" c ".data, "<img src=\"u3\">".data, "u3".data)] outsL).flatten ++ " d".data ∧
      outsB.length = 3 ∧ outsL.length = 3 ∧
      outsB.getD 1 [] =
        ([("a ".data, "<img src=\"u1\">".data, "u1".data),
          (" b ".data, "<img src=\"u2\">".data, "u2".data),
          (" c ".data, "<img src=\"u3\">".data, "u3".data)].getD 1 ([], [], [])).2.1
          ++ ("  <!-- 下载失败: " ++ "超时" ++ " -->").data ∧
      outsL.getD 1 [] =
        ([("a ".data, "<img src=\"u1\">".data, "u1".data),
          (" b ".data, "<img src=\"u2\">".data, "u2".data),
          (" c ".data, "<img src=\"u3\">".data, "u3".data)].getD 1 ([], [], [])).2.1
          ++ ("  <!-- 下载失败: " ++ "超时" ++ " -->").data ∧
      (∀ j, j < 3 → j ≠ 1 → ∃ raw,
        (fun u => if u = "u1" then Except.ok [88] else if u = "u3" then Except.ok ([66, 77] : List Nat)
          else Except.error "超时")
          (pyStrip (String.mk
            ([("a ".data, "<img src=\"u1\">".data, "u1".data),
              (" b ".data, "<img src=\"u2\">".data, "u2".data),
              (" c ".data, "<img src=\"u3\">".data, "u3".data)].getD j ([], [], [])).2.2))
          = Except.ok raw ∧
        outsB.getD j [] = "![](".data ++ dataUriOf raw ++ [')'] ∧
        ∃ idx : Nat, outsL.getD j [] =
          ("![](" ++ (("./" ++ ("doc" ++ "_images") ++ "/")
            ++ (toString idx ++ mimeExt (_detect_image_mime raw))) ++ ")").data)) :=
  ⟨⟨by decide, ⟨by decide, rfl⟩⟩,
    c7_fetch_failure_contained
      "a <img src=\"u1\"> b <img src=\"u2\"> c <img src=\"u3\"> d"
      (fun u => if u = "u1" then Except.ok [88] else if u = "u3" then Except.ok ([66, 77] : List Nat)
        else Except.error "超时") "doc"
      [("a ".data, "<img src=\"u1\">".data, "u1".data),
       (" b ".data, "<img src=\"u2\">".data, "u2".data),
       (" c ".data, "<img src=\"u3\">".data, "u3".data)] " d".data 1 "超时"
      (by decide) (by decide) rfl
      (by
        intro j hj hjk
        rcases j with _ | _ | _ | j
        · exact ⟨[88], rfl⟩
        · exact absurd rfl hjk
        · exact ⟨[66, 77], rfl⟩
        · simp only [List.length_cons, List.length_nil] at hj
          omega)⟩

/-- Helper: a cell whose right neighbour differs (or is absent) has
colspan 1. -/
theorem get_colspan_eq_one (mat : Mat) (r c : Nat)
    (h : ∀ h2 : c + 1 < (rowAt mat r).length, (rowAt mat r).getD (c + 1) 0 ≠ entry mat r c) :
    get_colspan mat r c = 1 := by
  unfold get_colspan
  by_cases h2 : c + 1 < (rowAt mat r).length
  · rw [List.drop_eq_getElem_cons h2, List.takeWhile_cons]
    rw [if_neg (by
      rw [← List.getD_eq_getElem (rowAt mat r) 0 h2]
      simpa using h h2)]
    rfl
  · rw [List.drop_eq_nil_of_le (by omega)]
    rfl

/-- Helper: a cell whose right neighbour matches and next-but-one differs
(or is absent) has colspan 2. -/
theorem get_colspan_eq_two (mat : Mat) (r c : Nat)
    (h1 : c + 1 < (rowAt mat r).length)
    (he : (rowAt mat r).getD (c + 1) 0 = entry mat r c)
    (h2 : ∀ hlt : c + 2 < (rowAt mat r).length, (rowAt mat r).getD (c + 2) 0 ≠ entry mat r c) :
    get_colspan mat r c = 2 := by
  unfold get_colspan
  rw [List.drop_eq_getElem_cons h1, List.takeWhile_cons]
  rw [if_pos (by
    rw [← List.getD_eq_getElem (rowAt mat r) 0 h1]
    simpa using he)]
  by_cases hlt : c + 2 < (rowAt mat r).length
  · rw [show c + 1 + 1 = c + 2 from rfl, List.drop_eq_getElem_cons hlt, List.takeWhile_cons]
    rw [if_neg (by
      rw [← List.getD_eq_getElem (rowAt mat r) 0 hlt]
      simpa using h2 hlt)]
    rfl
  · rw [show c + 1 + 1 = c + 2 from rfl, List.drop_eq_nil_of_le (by omega)]
    rfl

/-- Helper: a cell whose below neighbour fails the continuation test has
rowspan 1. -/
theorem get_rowspan_eq_one (mat : Mat) (r c : Nat)
    (h : ∀ hlt : r + 1 < mat.length,
      ¬(c < (rowAt mat (r + 1)).length ∧ entry mat (r + 1) c = entry mat r c)) :
    get_rowspan mat r c = 1 := by
  unfold get_rowspan
  by_cases hlt : r + 1 < mat.length
  · rw [List.drop_eq_getElem_cons hlt, List.takeWhile_cons]
    rw [if_neg (by
      have hrow : mat[r + 1] = rowAt mat (r + 1) :=
        (List.getD_eq_getElem mat [] hlt).symm
      rw [hrow]
      have := h hlt
      simp only [Bool.and_eq_true, decide_eq_true_eq, beq_iff_eq]
      intro hcon
      exact this ⟨hcon.1, hcon.2⟩)]
    rfl
  · rw [List.drop_eq_nil_of_le (by omega)]
    rfl

/-- Helper: a cell continued exactly one row below has rowspan 2. -/
theorem get_rowspan_eq_two (mat : Mat) (r c : Nat)
    (hlt : r + 1 < mat.length)
    (hc : c < (rowAt mat (r + 1)).length)
    (he : entry mat (r + 1) c = entry mat r c)
    (h2 : ∀ hlt2 : r + 2 < mat.length,
      ¬(c < (rowAt mat (r + 2)).length ∧ entry mat (r + 2) c = entry mat r c)) :
    get_rowspan mat r c = 2 := by
  unfold get_rowspan
  rw [List.drop_eq_getElem_cons hlt, List.takeWhile_cons]
  rw [if_pos (by
    have hrow : mat[r + 1] = rowAt mat (r + 1) :=
      (List.getD_eq_getElem mat [] hlt).symm
    rw [hrow]
    simp only [Bool.and_eq_true, decide_eq_true_eq, beq_iff_eq]
    exact ⟨hc, he⟩)]
  by_cases hlt2 : r + 2 < mat.length
  · rw [show r + 1 + 1 = r + 2 from rfl, List.drop_eq_getElem_cons hlt2, List.takeWhile_cons]
    rw [if_neg (by
      have hrow : mat[r + 2] = rowAt mat (r + 2) :=
        (List.getD_eq_getElem mat [] hlt2).symm
      rw [hrow]
      have := h2 hlt2
      simp only [Bool.and_eq_true, decide_eq_true_eq, beq_iff_eq]
      intro hcon
      exact this ⟨hcon.1, hcon.2⟩)]
    rfl
  · rw [show r + 1 + 1 = r + 2 from rfl, List.drop_eq_nil_of_le (by omega)]
    rfl

/-- Helper: membership in the visited position list. -/
theorem mem_positions (mat : Mat) (p : Nat × Nat) :
    p ∈ positions mat ↔ p.1 < mat.length ∧ p.2 < (rowAt mat p.1).length := by
  cases p with
  | mk r c =>
    simp [positions, List.mem_flatMap]

/-- Helper: a fold whose step fixes every accumulator is the identity. -/
theorem foldl_of_step_id {α β : Type} (f : β → α → β) (l : List α) (b : β)
    (h : ∀ x ∈ l, ∀ acc, f acc x = acc) : l.foldl f b = b := by
  induction l generalizing b with
  | nil => rfl
  | cons a l2 ih =>
    rw [List.foldl_cons, h a (by simp) b]
    exact ih b (fun x hx acc => h x (List.mem_cons_of_mem a hx) acc)

/-- Helper: a nonempty list of values all equal to one bound folds to it
under max from any smaller start. -/
theorem foldl_max_const : ∀ (l : List Nat) (cols acc : Nat), (∀ x ∈ l, x = cols) →
    acc ≤ cols → l ≠ [] → l.foldl max acc = cols := by
  intro l
  induction l with
  | nil => intro cols acc h hle hne; exact absurd rfl hne
  | cons a l2 ih =>
    intro cols acc h hle hne
    have ha : a = cols := h a (by simp)
    subst ha
    cases l2 with
    | nil =>
      rw [List.foldl_cons, List.foldl_nil]
      exact Nat.max_eq_right hle
    | cons b l3 =>
      rw [List.foldl_cons]
      exact ih a (max acc a) (fun x hx => h x (List.mem_cons_of_mem a hx))
        (max_le hle (le_refl a)) (by simp)

/-- Helper: with no covered positions and all colspans 1, the row emission
lists every column of the row with its span functions. -/
theorem emitRow_all_one (mat : Mat) (r : Nat)
    (hcol : ∀ c, c < (rowAt mat r).length → get_colspan mat r c = 1) :
    ∀ (n c : Nat), (rowAt mat r).length - c ≤ n →
      emitRow mat [] r c = (List.range' c ((rowAt mat r).length - c)).map
        (fun x => (x, get_rowspan mat r x, get_colspan mat r x)) := by
  intro n
  induction n with
  | zero =>
    intro c hn
    rw [emitRow]
    rw [dif_neg (by omega)]
    rw [show (rowAt mat r).length - c = 0 from by omega]
    rfl
  | succ n ih =>
    intro c hn
    by_cases hc : c < (rowAt mat r).length
    · rw [emitRow, dif_pos hc, if_neg (by simp)]
      rw [hcol c hc]
      rw [ih (c + 1) (by omega)]
      rw [show (rowAt mat r).length - c = ((rowAt mat r).length - (c + 1)) + 1 from by omega]
      rw [List.range'_succ]
      simp only [List.map_cons]
      rw [hcol c hc]
    · rw [emitRow, dif_neg hc]
      rw [show (rowAt mat r).length - c = 0 from by omega]
      rfl

/-- C2: a rectangular merge-free table (pairwise distinct cell indices at
every position) emits exactly rows by columns cells, each with rowspan 1 and
colspan 1, hence with no span attribute on any td element. -/
theorem c2_merge_free (t : PyTable) (cols : Nat)
    (hcells : t.cells ≠ [])
    (hmat : t.matrix ≠ [])
    (hrect : ∀ row ∈ t.matrix, row.length = cols)
    (hcols : 0 < cols)
    (hinj : ∀ r, r < t.matrix.length → ∀ c, c < (rowAt t.matrix r).length →
      ∀ r2, r2 < t.matrix.length → ∀ c2, c2 < (rowAt t.matrix r2).length →
      entry t.matrix r c = entry t.matrix r2 c2 → r = r2 ∧ c = c2) :
    emittedCellData t =
      some ((List.range t.matrix.length).map (fun _ =>
        (List.range cols).map (fun c => (c, 1, 1)))) := by
  have hrowlen : ∀ r, r < t.matrix.length → (rowAt t.matrix r).length = cols := by
    intro r hr
    have : rowAt t.matrix r = t.matrix[r] := List.getD_eq_getElem t.matrix [] hr
    rw [this]
    exact hrect _ (List.getElem_mem hr)
  have hcol1 : ∀ r c, r < t.matrix.length → c < (rowAt t.matrix r).length →
      get_colspan t.matrix r c = 1 := by
    intro r c hr hc
    apply get_colspan_eq_one
    intro h2 heq
    have := hinj r hr (c + 1) h2 r hr c hc heq
    omega
  have hrow1 : ∀ r c, r < t.matrix.length → c < (rowAt t.matrix r).length →
      get_rowspan t.matrix r c = 1 := by
    intro r c hr hc
    apply get_rowspan_eq_one
    intro hlt hcon
    have := hinj (r + 1) hlt c hcon.1 r hr c hc hcon.2
    omega
  have hcov : rowspan_at t.matrix = [] := by
    unfold rowspan_at
    apply foldl_of_step_id
    intro p hp acc
    obtain ⟨hp1, hp2⟩ := (mem_positions t.matrix p).mp hp
    unfold coveredStep
    split
    · rfl
    · unfold coveredFrom
      rw [hrow1 p.1 p.2 hp1 hp2]
      simp
  have hcolsEq : tableCols t.matrix = cols := by
    unfold tableCols
    apply foldl_max_const _ cols 0 _ (by omega) (by simpa using hmat)
    intro x hx
    obtain ⟨row, hrow, hlen⟩ := List.mem_map.mp hx
    rw [← hlen]
    exact hrect row hrow
  unfold emittedCellData
  rw [if_neg (by simp [hcells, hmat])]
  rw [if_neg (by
    rw [hcolsEq]
    simp only [List.length_eq_zero]
    push_neg
    exact ⟨hmat, by omega⟩)]
  rw [Option.some.injEq]
  apply List.map_congr_left
  intro r hr
  have hrlt : r < t.matrix.length := List.mem_range.mp hr
  rw [hcov]
  rw [emitRow_all_one t.matrix r (fun c hc => hcol1 r c hrlt hc) (rowAt t.matrix r).length 0
    (by omega)]
  rw [Nat.sub_zero, hrowlen r hrlt, ← List.range_eq_range']
  apply List.map_congr_left
  intro c hc
  have hclt : c < (rowAt t.matrix r).length := by
    rw [hrowlen r hrlt]
    exact List.mem_range.mp hc
  rw [hcol1 r c hrlt hclt, hrow1 r c hrlt hclt]

/-- C2 witness: the theorem applied at a concrete 2 by 2 distinct-index
table. -/
theorem c2_merge_free_witness :
    emittedCellData { cells := ["a", "b", "c", "d"], matrix := [[0, 1], [2, 3]], markdown := "" } =
      some [[(0, 1, 1), (1, 1, 1)], [(0, 1, 1), (1, 1, 1)]] :=
  c2_merge_free { cells := ["a", "b", "c", "d"], matrix := [[0, 1], [2, 3]], markdown := "" } 2
    (by decide) (by decide) (by decide) (by decide) (by decide)

/-- Helper: every emitted cell of a row lies at or after the start column,
inside the row, outside the covered set, and carries the span functions of
its own position. -/
theorem emitRow_mem (mat : Mat) (cov : List (Nat × Nat)) (r : Nat) :
    ∀ (n c : Nat), (rowAt mat r).length - c ≤ n →
      ∀ e ∈ emitRow mat cov r c,
        c ≤ e.1 ∧ e.1 < (rowAt mat r).length ∧ (r, e.1) ∉ cov ∧
          e.2.1 = get_rowspan mat r e.1 ∧ e.2.2 = get_colspan mat r e.1 := by
  intro n
  induction n with
  | zero =>
    intro c hn e he
    rw [emitRow, dif_neg (by omega)] at he
    exact absurd he (by simp)
  | succ n ih =>
    intro c hn e he
    by_cases hc : c < (rowAt mat r).length
    · rw [emitRow, dif_pos hc] at he
      split at he
      · have := ih (c + 1) (by omega) e he
        exact ⟨by omega, this.2⟩
      · rename_i hnc
        rcases List.mem_cons.mp he with h1 | h1
        · subst h1
          exact ⟨le_refl c, hc, hnc, rfl, rfl⟩
        · have hcs : 1 ≤ get_colspan mat r c := Nat.le_add_right 1 _
          have := ih (c + get_colspan mat r c) (by
            have : 1 ≤ get_colspan mat r c := Nat.le_add_right 1 _
            omega) e h1
          exact ⟨by omega, this.2⟩
    · rw [emitRow, dif_neg hc] at he
      exact absurd he (by simp)

/-- Helper: the emitted columns of a row are strictly increasing. -/
theorem emitRow_pairwise (mat : Mat) (cov : List (Nat × Nat)) (r : Nat) :
    ∀ (n c : Nat), (rowAt mat r).length - c ≤ n →
      (emitRow mat cov r c).Pairwise (fun a b => a.1 < b.1) := by
  intro n
  induction n with
  | zero =>
    intro c hn
    rw [emitRow, dif_neg (by omega)]
    exact List.Pairwise.nil
  | succ n ih =>
    intro c hn
    by_cases hc : c < (rowAt mat r).length
    · rw [emitRow, dif_pos hc]
      split
      · exact ih (c + 1) (by omega)
      · have hcs : 1 ≤ get_colspan mat r c := Nat.le_add_right 1 _
        refine List.Pairwise.cons ?_ (ih (c + get_colspan mat r c) (by omega))
        intro e he
        have := emitRow_mem mat cov r ((rowAt mat r).length - (c + get_colspan mat r c))
          (c + get_colspan mat r c) (le_refl _) e he
        simp only
        omega
    · rw [emitRow, dif_neg hc]
      exact List.Pairwise.nil

/-- Helper: a run of uncovered colspan-1 columns is emitted one cell per
column, then emission continues at the end of the run. -/
theorem emitRow_plain_run (mat : Mat) (cov : List (Nat × Nat)) (r : Nat) :
    ∀ (n c c2 : Nat), c ≤ c2 → c2 - c ≤ n →
      (∀ x, c ≤ x → x < c2 → x < (rowAt mat r).length ∧ (r, x) ∉ cov ∧
        get_colspan mat r x = 1) →
      emitRow mat cov r c =
        (List.range' c (c2 - c)).map (fun x => (x, get_rowspan mat r x, get_colspan mat r x))
          ++ emitRow mat cov r c2 := by
  intro n
  induction n with
  | zero =>
    intro c c2 hle hn h
    rw [show c2 = c from by omega]
    simp
  | succ n ih =>
    intro c c2 hle hn h
    by_cases heq : c = c2
    · rw [heq]
      simp
    · have hclt : c < c2 := by omega
      obtain ⟨hx1, hx2, hx3⟩ := h c (le_refl c) hclt
      rw [emitRow, dif_pos hx1, if_neg hx2, hx3]
      rw [ih (c + 1) c2 (by omega) (by omega) (fun x hx1 hx2 => h x (by omega) hx2)]
      rw [show c2 - c = (c2 - (c + 1)) + 1 from by omega, List.range'_succ]
      simp only [List.map_cons, List.cons_append]
      rw [hx3]

/-- Helper: a run of covered columns is skipped entirely. -/
theorem emitRow_covered_run (mat : Mat) (cov : List (Nat × Nat)) (r : Nat) :
    ∀ (n c c2 : Nat), c ≤ c2 → c2 - c ≤ n →
      (∀ x, c ≤ x → x < c2 → x < (rowAt mat r).length ∧ (r, x) ∈ cov) →
      emitRow mat cov r c = emitRow mat cov r c2 := by
  intro n
  induction n with
  | zero =>
    intro c c2 hle hn h
    rw [show c2 = c from by omega]
  | succ n ih =>
    intro c c2 hle hn h
    by_cases heq : c = c2
    · rw [heq]
    · have hclt : c < c2 := by omega
      obtain ⟨hx1, hx2⟩ := h c (le_refl c) hclt
      rw [emitRow, dif_pos hx1, if_pos hx2]
      exact ih (c + 1) c2 (by omega) (by omega) (fun x hx1 hx2 => h x (by omega) hx2)

/-- Helper: a fold whose steps only add elements of a fixed set keeps every
result inside the start accumulator or that set. -/
theorem foldl_mem_or {α β : Type} (f : List β → α → List β) (S : List β) :
    ∀ (l : List α) (init : List β),
      (∀ acc x, x ∈ l → ∀ y ∈ f acc x, y ∈ acc ∨ y ∈ S) →
      ∀ y ∈ l.foldl f init, y ∈ init ∨ y ∈ S := by
  intro l
  induction l with
  | nil => intro init h y hy; exact Or.inl hy
  | cons a l2 ih =>
    intro init h y hy
    rw [List.foldl_cons] at hy
    rcases ih (f init a) (fun acc x hx => h acc x (by simp [hx])) y hy with h1 | h1
    · exact h init a (by simp) y h1
    · exact Or.inr h1

/-- Helper: a fold whose steps keep the accumulator keeps initial members. -/
theorem foldl_mem_mono {α β : Type} (f : List β → α → List β)
    (hf : ∀ acc x, ∀ y ∈ acc, y ∈ f acc x) :
    ∀ (l : List α) (init : List β), ∀ y ∈ init, y ∈ l.foldl f init := by
  intro l
  induction l with
  | nil => intro init y hy; exact hy
  | cons a l2 ih =>
    intro init y hy
    rw [List.foldl_cons]
    exact ih (f init a) y (hf init a y hy)

/-- Helper: the start value bounds a max fold from below. -/
theorem le_foldl_max_init : ∀ (l : List Nat) (a : Nat), a ≤ l.foldl max a := by
  intro l
  induction l with
  | nil => intro a; exact le_refl a
  | cons x l2 ih =>
    intro a
    rw [List.foldl_cons]
    exact le_trans (le_max_left a x) (ih (max a x))

/-- Helper: every member bounds a max fold from below. -/
theorem le_foldl_max_of_mem : ∀ (l : List Nat) (a x : Nat), x ∈ l → x ≤ l.foldl max a := by
  intro l
  induction l with
  | nil => intro a x hx; exact absurd hx (by simp)
  | cons y l2 ih =>
    intro a x hx
    rw [List.foldl_cons]
    rcases List.mem_cons.mp hx with h1 | h1
    · subst h1
      exact le_trans (le_max_right a x) (le_foldl_max_init l2 (max a x))
    · exact ih (max a y) x h1

/-- C1: a table whose matrix holds exactly one 2 by 2 merged region (the
same index filling the contiguous rectangle with top-left (r0, c0)) and
otherwise pairwise-distinct indices emits exactly one spanning cell: the
cell at (r0, c0) with rowspan 2 and colspan 2 (hence the td with both
rowspan and colspan attributes), no cell at the other three covered
positions, and every other emitted cell has rowspan 1 and colspan 1. -/
theorem c1_single_merge (t : PyTable) (r0 c0 : Nat)
    (hcells : t.cells ≠ [])
    (hb1 : r0 + 1 < t.matrix.length)
    (hb2 : c0 + 1 < (rowAt t.matrix r0).length)
    (hb3 : c0 + 1 < (rowAt t.matrix (r0 + 1)).length)
    (he1 : entry t.matrix r0 (c0 + 1) = entry t.matrix r0 c0)
    (he2 : entry t.matrix (r0 + 1) c0 = entry t.matrix r0 c0)
    (he3 : entry t.matrix (r0 + 1) (c0 + 1) = entry t.matrix r0 c0)
    (hv : ∀ r, r < t.matrix.length → ∀ c, c < (rowAt t.matrix r).length →
      ¬inBlock r0 c0 r c → entry t.matrix r c ≠ entry t.matrix r0 c0)
    (hinj : ∀ r, r < t.matrix.length → ∀ c, c < (rowAt t.matrix r).length →
      ∀ r2, r2 < t.matrix.length → ∀ c2, c2 < (rowAt t.matrix r2).length →
      ¬inBlock r0 c0 r c → ¬inBlock r0 c0 r2 c2 →
      entry t.matrix r c = entry t.matrix r2 c2 → r = r2 ∧ c = c2) :
    ∃ em, emittedCellData t = some em ∧
      (c0, 2, 2) ∈ em.getD r0 [] ∧
      (∀ e ∈ em.getD r0 [], e.1 = c0 → e = (c0, 2, 2)) ∧
      (∀ e ∈ em.getD r0 [], e.1 ≠ c0 + 1) ∧
      (∀ e ∈ em.getD (r0 + 1) [], e.1 ≠ c0 ∧ e.1 ≠ c0 + 1) ∧
      (∀ r, r < em.length → ∀ e ∈ em.getD r [], (e.2.1 ≠ 1 ∨ e.2.2 ≠ 1) →
        r = r0 ∧ e = (c0, 2, 2)) ∧
      (em.getD r0 []).Pairwise (fun a b => a.1 < b.1) := by
  have hr0 : r0 < t.matrix.length := by omega
  have hr1 : r0 + 1 < t.matrix.length := hb1
  have hc0r0 : c0 < (rowAt t.matrix r0).length := by omega
  have hc1r0 : c0 + 1 < (rowAt t.matrix r0).length := hb2
  have hc0r1 : c0 < (rowAt t.matrix (r0 + 1)).length := by omega
  have hbe : ∀ r c, inBlock r0 c0 r c → entry t.matrix r c = entry t.matrix r0 c0 := by
    intro r c hb
    obtain ⟨hbr, hbc⟩ := hb
    rcases hbr with rfl | rfl <;> rcases hbc with rfl | rfl
    · rfl
    · exact he1
    · exact he2
    · exact he3
  have hnbcol : ∀ r c, r < t.matrix.length → c < (rowAt t.matrix r).length →
      ¬inBlock r0 c0 r c → get_colspan t.matrix r c = 1 := by
    intro r c hr hc hnb
    apply get_colspan_eq_one
    intro h2 heq
    have heq2 : entry t.matrix r (c + 1) = entry t.matrix r c := heq
    by_cases hb : inBlock r0 c0 r (c + 1)
    · exact hv r hr c hc hnb (heq2.symm.trans (hbe r (c + 1) hb))
    · have := hinj r hr (c + 1) h2 r hr c hc hb hnb heq2
      omega
  have hnbrow : ∀ r c, r < t.matrix.length → c < (rowAt t.matrix r).length →
      ¬inBlock r0 c0 r c → get_rowspan t.matrix r c = 1 := by
    intro r c hr hc hnb
    apply get_rowspan_eq_one
    intro hlt hcon
    by_cases hb : inBlock r0 c0 (r + 1) c
    · exact hv r hr c hc hnb (hcon.2.symm.trans (hbe (r + 1) c hb))
    · have := hinj (r + 1) hlt c hcon.1 r hr c hc hb hnb hcon.2
      omega
  have hnb00 : ∀ c, c ≠ c0 → c ≠ c0 + 1 → ¬inBlock r0 c0 r0 c := by
    intro c h1 h2 hb
    rcases hb with ⟨_, hc | hc⟩ <;> omega
  have hnb10 : ∀ c, c ≠ c0 → c ≠ c0 + 1 → ¬inBlock r0 c0 (r0 + 1) c := by
    intro c h1 h2 hb
    rcases hb with ⟨_, hc | hc⟩ <;> omega
  have hnbrr : ∀ r c, r ≠ r0 → r ≠ r0 + 1 → ¬inBlock r0 c0 r c := by
    intro r c h1 h2 hb
    rcases hb with ⟨hr | hr, _⟩ <;> omega
  have hs00c : get_colspan t.matrix r0 c0 = 2 := by
    apply get_colspan_eq_two t.matrix r0 c0 hb2 he1
    intro hlt heq
    exact hv r0 hr0 (c0 + 2) hlt (hnb00 (c0 + 2) (by omega) (by omega)) heq
  have hs00r : get_rowspan t.matrix r0 c0 = 2 := by
    apply get_rowspan_eq_two t.matrix r0 c0 hb1 hc0r1 he2
    intro hlt2 hcon
    exact hv (r0 + 2) hlt2 c0 hcon.1 (hnbrr (r0 + 2) c0 (by omega) (by omega)) hcon.2
  have hs01c : get_colspan t.matrix r0 (c0 + 1) = 1 := by
    apply get_colspan_eq_one
    intro h2 heq
    have heq2 : entry t.matrix r0 (c0 + 2) = entry t.matrix r0 (c0 + 1) := heq
    exact hv r0 hr0 (c0 + 2) h2 (hnb00 (c0 + 2) (by omega) (by omega)) (heq2.trans he1)
  have hs01r : get_rowspan t.matrix r0 (c0 + 1) = 2 := by
    apply get_rowspan_eq_two t.matrix r0 (c0 + 1) hb1 hb3 (he3.trans he1.symm)
    intro hlt2 hcon
    exact hv (r0 + 2) hlt2 (c0 + 1) hcon.1 (hnbrr (r0 + 2) (c0 + 1) (by omega) (by omega))
      (hcon.2.trans he1)
  have hs10r : get_rowspan t.matrix (r0 + 1) c0 = 1 := by
    apply get_rowspan_eq_one
    intro hlt hcon
    exact hv (r0 + 2) hlt c0 hcon.1 (hnbrr (r0 + 2) c0 (by omega) (by omega))
      (hcon.2.trans he2)
  have hs11r : get_rowspan t.matrix (r0 + 1) (c0 + 1) = 1 := by
    apply get_rowspan_eq_one
    intro hlt hcon
    exact hv (r0 + 2) hlt (c0 + 1) hcon.1 (hnbrr (r0 + 2) (c0 + 1) (by omega) (by omega))
      (hcon.2.trans he3)
  have hcf1 : ∀ r c, get_rowspan t.matrix r c = 1 →
      coveredFrom t.matrix t.matrix.length r c = [] := by
    intro r c h1
    unfold coveredFrom
    rw [h1]
    rfl
  have hcf00 : coveredFrom t.matrix t.matrix.length r0 c0 =
      [(r0 + 1, c0), (r0 + 1, c0 + 1)] := by
    unfold coveredFrom
    rw [hs00r, hs00c]
    rw [show (2 : Nat) - 1 = 1 from rfl, List.range'_one]
    simp only [List.flatMap_cons, List.flatMap_nil, List.append_nil]
    rw [if_pos hb1]
    rw [Nat.min_eq_left (by omega)]
    rw [show c0 + 2 - c0 = 2 from by omega]
    rfl
  have hcf01 : coveredFrom t.matrix t.matrix.length r0 (c0 + 1) = [(r0 + 1, c0 + 1)] := by
    unfold coveredFrom
    rw [hs01r, hs01c]
    rw [show (2 : Nat) - 1 = 1 from rfl, List.range'_one]
    simp only [List.flatMap_cons, List.flatMap_nil, List.append_nil]
    rw [if_pos hb1]
    rw [Nat.min_eq_left (by omega)]
    rw [show c0 + 1 + 1 - (c0 + 1) = 1 from by omega]
    rfl
  have hcf_sub : ∀ p ∈ positions t.matrix,
      ∀ y ∈ coveredFrom t.matrix t.matrix.length p.1 p.2,
        y = (r0 + 1, c0) ∨ y = (r0 + 1, c0 + 1) := by
    intro p hp y hy
    obtain ⟨pr, pc⟩ := p
    obtain ⟨hp1, hp2⟩ := (mem_positions t.matrix (pr, pc)).mp hp
    by_cases hb : inBlock r0 c0 pr pc
    · obtain ⟨hbr, hbc⟩ := hb
      rcases hbr with rfl | rfl <;> rcases hbc with rfl | rfl
      · rw [hcf00] at hy
        simpa using hy
      · rw [hcf01] at hy
        simp at hy
        simp [hy]
      · rw [hcf1 _ _ hs10r] at hy
        exact absurd hy (by simp)
      · rw [hcf1 _ _ hs11r] at hy
        exact absurd hy (by simp)
    · rw [hcf1 _ _ (hnbrow pr pc hp1 hp2 hb)] at hy
      exact absurd hy (by simp)
  have hstep_or : ∀ acc x, x ∈ positions t.matrix →
      ∀ y ∈ coveredStep t.matrix t.matrix.length acc x,
        y ∈ acc ∨ y ∈ [(r0 + 1, c0), (r0 + 1, c0 + 1)] := by
    intro acc x hx y hy
    unfold coveredStep at hy
    split at hy
    · exact Or.inl hy
    · rcases List.mem_append.mp hy with h | h
      · exact Or.inl h
      · exact Or.inr (by simpa using hcf_sub x hx y h)
  have hcov_sub : ∀ y ∈ rowspan_at t.matrix, y = (r0 + 1, c0) ∨ y = (r0 + 1, c0 + 1) := by
    intro y hy
    unfold rowspan_at at hy
    rcases foldl_mem_or (coveredStep t.matrix t.matrix.length) [(r0 + 1, c0), (r0 + 1, c0 + 1)]
      (positions t.matrix) [] hstep_or y hy with h | h
    · exact absurd h (by simp)
    · simpa using h
  have hcov_sup : ∀ y, (y = (r0 + 1, c0) ∨ y = (r0 + 1, c0 + 1)) →
      y ∈ rowspan_at t.matrix := by
    intro y hyS
    unfold rowspan_at
    obtain ⟨s, t2, hsplit⟩ :=
      List.append_of_mem ((mem_positions t.matrix (r0, c0)).mpr ⟨hr0, hc0r0⟩)
    rw [hsplit, List.foldl_append, List.foldl_cons]
    have hssub : ∀ x ∈ s, x ∈ positions t.matrix := by
      intro x hx
      rw [hsplit]
      exact List.mem_append_left _ hx
    have hAsub : ∀ z ∈ List.foldl (coveredStep t.matrix t.matrix.length) [] s,
        z = (r0 + 1, c0) ∨ z = (r0 + 1, c0 + 1) := by
      intro z hz
      rcases foldl_mem_or (coveredStep t.matrix t.matrix.length)
        [(r0 + 1, c0), (r0 + 1, c0 + 1)] s []
        (fun acc x hx => hstep_or acc x (hssub x hx)) z hz with h | h
      · exact absurd h (by simp)
      · simpa using h
    have hnotin : (r0, c0) ∉ List.foldl (coveredStep t.matrix t.matrix.length) [] s := by
      intro hin
      rcases hAsub _ hin with h | h <;> (rw [Prod.mk.injEq] at h; omega)
    have hcs : ∀ (acc : List (Nat × Nat)) (x : Nat × Nat),
        coveredStep t.matrix t.matrix.length acc x =
        if x ∈ acc then acc else acc ++ coveredFrom t.matrix t.matrix.length x.1 x.2 :=
      fun acc x => rfl
    have hstep : coveredStep t.matrix t.matrix.length
        (List.foldl (coveredStep t.matrix t.matrix.length) [] s) (r0, c0) =
        List.foldl (coveredStep t.matrix t.matrix.length) [] s
          ++ [(r0 + 1, c0), (r0 + 1, c0 + 1)] := by
      rw [hcs, if_neg hnotin]
      rw [hcf00]
    rw [hstep]
    apply foldl_mem_mono
    · intro acc x z hz
      unfold coveredStep
      split
      · exact hz
      · exact List.mem_append_left _ hz
    · apply List.mem_append_right
      rcases hyS with rfl | rfl <;> simp
  have hcovn : ∀ r x, r ≠ r0 + 1 → (r, x) ∉ rowspan_at t.matrix := by
    intro r x hne hin
    rcases hcov_sub _ hin with h | h <;> (rw [Prod.mk.injEq] at h; omega)
  have hcovc : ∀ x, x ≠ c0 → x ≠ c0 + 1 → (r0 + 1, x) ∉ rowspan_at t.matrix := by
    intro x h1 h2 hin
    rcases hcov_sub _ hin with h | h <;> (rw [Prod.mk.injEq] at h; omega)
  have hrow0 : emitRow t.matrix (rowspan_at t.matrix) r0 0 =
      (List.range' 0 c0).map
        (fun x => (x, get_rowspan t.matrix r0 x, get_colspan t.matrix r0 x))
        ++ (c0, 2, 2) :: emitRow t.matrix (rowspan_at t.matrix) r0 (c0 + 2) := by
    rw [emitRow_plain_run t.matrix (rowspan_at t.matrix) r0 c0 0 c0 (by omega) (by omega)
      (fun x hx1 hx2 => ⟨by omega, hcovn r0 x (by omega),
        hnbcol r0 x hr0 (by omega) (hnb00 x (by omega) (by omega))⟩)]
    rw [Nat.sub_zero]
    rw [emitRow, dif_pos hc0r0, if_neg (hcovn r0 c0 (by omega)), hs00r, hs00c]
  have hrow1 : emitRow t.matrix (rowspan_at t.matrix) (r0 + 1) 0 =
      (List.range' 0 c0).map
        (fun x => (x, get_rowspan t.matrix (r0 + 1) x, get_colspan t.matrix (r0 + 1) x))
        ++ emitRow t.matrix (rowspan_at t.matrix) (r0 + 1) (c0 + 2) := by
    rw [emitRow_plain_run t.matrix (rowspan_at t.matrix) (r0 + 1) c0 0 c0 (by omega) (by omega)
      (fun x hx1 hx2 => ⟨by omega, hcovc x (by omega) (by omega),
        hnbcol (r0 + 1) x hr1 (by omega) (hnb10 x (by omega) (by omega))⟩)]
    rw [Nat.sub_zero]
    rw [emitRow_covered_run t.matrix (rowspan_at t.matrix) (r0 + 1) 2 c0 (c0 + 2) (by omega)
      (by omega) (fun x hx1 hx2 => ⟨by omega, by
        have hx : x = c0 ∨ x = c0 + 1 := by omega
        rcases hx with rfl | rfl
        · exact hcov_sup _ (Or.inl rfl)
        · exact hcov_sup _ (Or.inr rfl)⟩)]
  have hget : ∀ r, r < t.matrix.length →
      ((List.range t.matrix.length).map
        (fun r => emitRow t.matrix (rowspan_at t.matrix) r 0)).getD r [] =
      emitRow t.matrix (rowspan_at t.matrix) r 0 := by
    intro r hr
    rw [List.getD_eq_getElem _ [] (by simpa using hr)]
    simp
  refine ⟨(List.range t.matrix.length).map
    (fun r => emitRow t.matrix (rowspan_at t.matrix) r 0), ?_, ?_, ?_, ?_, ?_, ?_, ?_⟩
  case _ =>
    unfold emittedCellData
    rw [if_neg (by
      simp only [not_or]
      exact ⟨hcells, by intro h; rw [h] at hb1; simp at hb1⟩)]
    rw [if_neg (by
      simp only [not_or]
      constructor
      · intro h; rw [h] at hb1; simp at hb1
      · intro h
        have hle : (rowAt t.matrix r0).length ≤ tableCols t.matrix := by
          apply le_foldl_max_of_mem
          apply List.mem_map.mpr
          refine ⟨rowAt t.matrix r0, ?_, rfl⟩
          have hrw : rowAt t.matrix r0 = t.matrix[r0] := List.getD_eq_getElem t.matrix [] hr0
          rw [hrw]
          exact List.getElem_mem hr0
        omega)]
  case _ =>
    rw [hget r0 hr0, hrow0]
    exact List.mem_append_right _ (List.mem_cons_self _ _)
  case _ =>
    rw [hget r0 hr0, hrow0]
    intro e he hec0
    rcases List.mem_append.mp he with h | h
    · obtain ⟨x, hx, hxe⟩ := List.mem_map.mp h
      have := (List.mem_range'_1.mp hx).2
      rw [← hxe] at hec0
      have hx3 : x = c0 := hec0
      omega
    · rcases List.mem_cons.mp h with h2 | h2
      · exact h2
      · have := emitRow_mem t.matrix (rowspan_at t.matrix) r0 _ (c0 + 2) (le_refl _) e h2
        omega
  case _ =>
    rw [hget r0 hr0, hrow0]
    intro e he
    rcases List.mem_append.mp he with h | h
    · obtain ⟨x, hx, hxe⟩ := List.mem_map.mp h
      have := (List.mem_range'_1.mp hx).2
      intro hq
      rw [← hxe] at hq
      have hx3 : x = c0 + 1 := hq
      omega
    · rcases List.mem_cons.mp h with h2 | h2
      · rw [h2]
        intro hq
        have hx3 : c0 = c0 + 1 := hq
        omega
      · have := emitRow_mem t.matrix (rowspan_at t.matrix) r0 _ (c0 + 2) (le_refl _) e h2
        omega
  case _ =>
    rw [hget (r0 + 1) hr1, hrow1]
    intro e he
    rcases List.mem_append.mp he with h | h
    · obtain ⟨x, hx, hxe⟩ := List.mem_map.mp h
      have := (List.mem_range'_1.mp hx).2
      rw [← hxe]
      refine ⟨fun hq => ?_, fun hq => ?_⟩
      · have hx3 : x = c0 := hq
        omega
      · have hx3 : x = c0 + 1 := hq
        omega
    · have := emitRow_mem t.matrix (rowspan_at t.matrix) (r0 + 1) _ (c0 + 2) (le_refl _) e h
      omega
  case _ =>
    intro r hrlen e he hspan
    have hrm : r < t.matrix.length := by simpa using hrlen
    rw [hget r hrm] at he
    obtain ⟨hm1, hm2, hm3, hm4, hm5⟩ :=
      emitRow_mem t.matrix (rowspan_at t.matrix) r _ 0 (le_refl _) e he
    by_cases hb : inBlock r0 c0 r e.1
    · obtain ⟨hbr, hbc⟩ := hb
      rcases hbr with hbr | hbr
      · rw [hbr] at he hm2 hm3 hm4 hm5
        rcases hbc with hbc | hbc
        · refine ⟨hbr, ?_⟩
          have heta : e = (e.1, e.2.1, e.2.2) := rfl
          rw [heta, hm4, hm5, hbc, hs00r, hs00c]
        · exfalso
          rw [hrow0] at he
          rcases List.mem_append.mp he with h | h
          · obtain ⟨x, hx, hxe⟩ := List.mem_map.mp h
            have := (List.mem_range'_1.mp hx).2
            rw [← hxe] at hbc
            have hx3 : x = c0 + 1 := hbc
            omega
          · rcases List.mem_cons.mp h with h2 | h2
            · rw [h2] at hbc
              have hx3 : c0 = c0 + 1 := hbc
              omega
            · have := emitRow_mem t.matrix (rowspan_at t.matrix) r0 _ (c0 + 2) (le_refl _) e h2
              omega
      · rw [hbr] at hm3
        exfalso
        rcases hbc with hbc | hbc
        · exact hm3 (hcov_sup (r0 + 1, e.1) (Or.inl (by rw [hbc])))
        · exact hm3 (hcov_sup (r0 + 1, e.1) (Or.inr (by rw [hbc])))
    · exfalso
      rcases hspan with h | h
      · exact h (hm4.trans (hnbrow r e.1 hrm hm2 hb))
      · exact h (hm5.trans (hnbcol r e.1 hrm hm2 hb))
  case _ =>
    rw [hget r0 hr0]
    exact emitRow_pairwise t.matrix (rowspan_at t.matrix) r0 _ 0 (le_refl _)

/-- Helper: an Option fold whose step always succeeds equals the pure fold. -/
theorem foldlM_eq_foldl {α β : Type} (f : β → α → Option β) (g : β → α → β) :
    ∀ (l : List α), (∀ acc, ∀ x ∈ l, f acc x = some (g acc x)) →
      ∀ init, List.foldlM f init l = some (List.foldl g init l) := by
  intro l
  induction l with
  | nil => intro h init; rfl
  | cons a l2 ih =>
    intro h init
    rw [List.foldlM_cons, h init a (List.mem_cons_self a l2), List.foldl_cons]
    exact ih (fun acc x hx => h acc x (List.mem_cons_of_mem a hx)) (g init a)

/-- Helper: an Option map whose function always succeeds equals the pure map. -/
theorem mapM_eq_map {α β : Type} (f : α → Option β) (g : α → β) :
    ∀ (l : List α), (∀ x ∈ l, f x = some (g x)) →
      List.mapM f l = some (List.map g l) := by
  intro l
  induction l with
  | nil => intro h; rfl
  | cons a l2 ih =>
    intro h
    simp only [List.mapM_cons, h a (List.mem_cons_self a l2),
      ih (fun x hx => h x (List.mem_cons_of_mem a hx))]
    rfl

/-- Helper: folding list appends of a function is flatMap. -/
theorem foldl_append_flatMap {α β : Type} (f : α → List β) :
    ∀ (l : List α) (init : List β),
      List.foldl (fun acc x => acc ++ f x) init l = init ++ l.flatMap f := by
  intro l
  induction l with
  | nil => intro init; simp
  | cons a l2 ih =>
    intro init
    rw [List.foldl_cons, ih, List.flatMap_cons, List.append_assoc]

/-- The checked colspan loop with exact fuel equals the takeWhile count. -/
theorem colLoopO_eq (row : List Nat) (v : Nat) :
    ∀ (fuel cc count : Nat), fuel = row.length - cc →
      colLoopO row v fuel cc count =
        some (count + ((row.drop cc).takeWhile (fun x => x == v)).length) := by
  intro fuel
  induction fuel with
  | zero =>
    intro cc count hf
    have hd : row.drop cc = [] := List.drop_eq_nil_of_le (by omega)
    rw [hd]
    rfl
  | succ fuel ih =>
    intro cc count hf
    have hcc : cc < row.length := by omega
    have hsub : subO row cc = some row[cc] := List.getElem?_eq_getElem hcc
    rw [List.drop_eq_getElem_cons hcc, List.takeWhile_cons]
    simp only [colLoopO, hsub]
    by_cases hx : (row[cc] == v) = true
    · rw [if_pos hx, if_pos hx]
      rw [ih (cc + 1) (count + 1) (by omega)]
      simp only [List.length_cons]
      exact congrArg some (by omega)
    · rw [if_neg hx, if_neg hx]
      rfl

/-- The checked get_colspan equals the source one at an in-bounds position. -/
theorem get_colspanO_eq (mat : Mat) (r c : Nat) (hr : r < mat.length)
    (hc : c < (rowAt mat r).length) :
    get_colspanO mat r c = some (get_colspan mat r c) := by
  have hrow : rowAt mat r = mat[r] := List.getD_eq_getElem mat [] hr
  have hsub : subO mat r = some (rowAt mat r) := by
    rw [hrow]
    exact List.getElem?_eq_getElem hr
  have hsub2 : subO (rowAt mat r) c = some (entry mat r c) := by
    have he : entry mat r c = (rowAt mat r)[c] := List.getD_eq_getElem (rowAt mat r) 0 hc
    rw [he]
    exact List.getElem?_eq_getElem hc
  unfold get_colspanO
  simp only [hsub, hsub2]
  rw [colLoopO_eq (rowAt mat r) (entry mat r c) ((rowAt mat r).length - (c + 1)) (c + 1) 1 rfl]
  rfl

/-- The checked rowspan loop with exact fuel equals the takeWhile count. -/
theorem rowLoopO_eq (mat : Mat) (v c : Nat) :
    ∀ (fuel rr count : Nat), fuel = mat.length - rr →
      rowLoopO mat v c fuel rr count =
        some (count + ((mat.drop rr).takeWhile
          (fun row => decide (c < row.length) && (row.getD c 0 == v))).length) := by
  intro fuel
  induction fuel with
  | zero =>
    intro rr count hf
    have hd : mat.drop rr = [] := List.drop_eq_nil_of_le (by omega)
    rw [hd]
    rfl
  | succ fuel ih =>
    intro rr count hf
    have hrr : rr < mat.length := by omega
    have hsub : subO mat rr = some mat[rr] := List.getElem?_eq_getElem hrr
    rw [List.drop_eq_getElem_cons hrr, List.takeWhile_cons]
    simp only [rowLoopO, hsub]
    by_cases hcl : c < mat[rr].length
    · have hsub2 : subO mat[rr] c = some (mat[rr].getD c 0) := by
        rw [List.getD_eq_getElem mat[rr] 0 hcl]
        exact List.getElem?_eq_getElem hcl
      simp only [hsub2, if_pos hcl]
      by_cases hx : (mat[rr].getD c 0 == v) = true
      · have hcond : (decide (c < mat[rr].length) && (mat[rr].getD c 0 == v)) = true := by
          rw [decide_eq_true hcl, hx]
          rfl
        rw [if_pos hx, if_pos hcond]
        rw [ih (rr + 1) (count + 1) (by omega)]
        simp only [List.length_cons]
        exact congrArg some (by omega)
      · have hx2 : (mat[rr].getD c 0 == v) = false := by
          cases hq : (mat[rr].getD c 0 == v)
          · rfl
          · exact absurd hq hx
        have hcond : ¬((decide (c < mat[rr].length) && (mat[rr].getD c 0 == v)) = true) := by
          intro hq
          rw [hx2, Bool.and_false] at hq
          exact Bool.false_ne_true hq
        rw [if_neg hx, if_neg hcond]
        rfl
    · have hcond : ¬((decide (c < mat[rr].length) && (mat[rr].getD c 0 == v)) = true) := by
        intro hq
        rw [decide_eq_false hcl, Bool.false_and] at hq
        exact Bool.false_ne_true hq
      rw [if_neg hcl, if_neg hcond]
      rfl

/-- The checked get_rowspan equals the source one at an in-bounds position. -/
theorem get_rowspanO_eq (mat : Mat) (r c : Nat) (hr : r < mat.length)
    (hc : c < (rowAt mat r).length) :
    get_rowspanO mat r c = some (get_rowspan mat r c) := by
  have hrow : rowAt mat r = mat[r] := List.getD_eq_getElem mat [] hr
  have hsub : subO mat r = some (rowAt mat r) := by
    rw [hrow]
    exact List.getElem?_eq_getElem hr
  have hsub2 : subO (rowAt mat r) c = some (entry mat r c) := by
    have he : entry mat r c = (rowAt mat r)[c] := List.getD_eq_getElem (rowAt mat r) 0 hc
    rw [he]
    exact List.getElem?_eq_getElem hc
  unfold get_rowspanO
  simp only [hsub, hsub2]
  rw [rowLoopO_eq mat (entry mat r c) c (mat.length - (r + 1)) (r + 1) 1 rfl]
  rfl

/-- The checked covered-positions computation equals the source one. -/
theorem coveredFromO_eq (mat : Mat) (rows r c : Nat) (hrows : rows ≤ mat.length)
    (hr : r < mat.length) (hc : c < (rowAt mat r).length) :
    coveredFromO mat rows r c = some (coveredFrom mat rows r c) := by
  have hsub : subO mat r = some (rowAt mat r) := by
    have hrw : rowAt mat r = mat[r] := List.getD_eq_getElem mat [] hr
    rw [hrw]
    exact List.getElem?_eq_getElem hr
  have hsub2 : subO (rowAt mat r) c = some (entry mat r c) := by
    have he : entry mat r c = (rowAt mat r)[c] := List.getD_eq_getElem (rowAt mat r) 0 hc
    rw [he]
    exact List.getElem?_eq_getElem hc
  unfold coveredFromO
  simp only [hsub, hsub2, get_rowspanO_eq mat r c hr hc]
  have hstep : ∀ (acc : List (Nat × Nat)),
      ∀ rr ∈ List.range' (r + 1) (get_rowspan mat r c - 1),
      (match get_colspanO mat r c with
       | none => none
       | some cs =>
         if rr < rows then
           match subO mat rr with
           | none => none
           | some rowr =>
             some (acc ++ (List.range' c (min (c + cs) rowr.length - c)).map
               (fun cc => (rr, cc)))
         else some acc)
      = some (acc ++ (if rr < rows then
          (List.range' c (min (c + get_colspan mat r c) (rowAt mat rr).length - c)).map
            (fun cc => (rr, cc))
        else [])) := by
    intro acc rr hrr
    simp only [get_colspanO_eq mat r c hr hc]
    by_cases h : rr < rows
    · have hrrm : rr < mat.length := lt_of_lt_of_le h hrows
      have hsubr : subO mat rr = some (rowAt mat rr) := by
        have hrw : rowAt mat rr = mat[rr] := List.getD_eq_getElem mat [] hrrm
        rw [hrw]
        exact List.getElem?_eq_getElem hrrm
      simp only [hsubr, if_pos h]
    · simp only [if_neg h]
      rw [List.append_nil]
  rw [foldlM_eq_foldl _ _ _ hstep []]
  rw [foldl_append_flatMap, List.nil_append]
  rfl

/-- The checked precomputation step equals the source one. -/
theorem coveredStepO_eq (mat : Mat) (rows : Nat) (hrows : rows ≤ mat.length)
    (acc : List (Nat × Nat)) (rc : Nat × Nat) (h1 : rc.1 < mat.length)
    (h2 : rc.2 < (rowAt mat rc.1).length) :
    coveredStepO mat rows acc rc = some (coveredStep mat rows acc rc) := by
  unfold coveredStepO coveredStep
  by_cases hm : rc ∈ acc
  · rw [if_pos hm, if_pos hm]
  · rw [if_neg hm, if_neg hm]
    simp only [coveredFromO_eq mat rows rc.1 rc.2 hrows h1 h2]

/-- The checked position enumeration equals the source one. -/
theorem positionsO_eq (mat : Mat) : positionsO mat mat.length = some (positions mat) := by
  unfold positionsO
  have hstep : ∀ (acc : List (Nat × Nat)), ∀ x ∈ List.range mat.length,
      (match subO mat x with
       | none => none
       | some row => some (acc ++ (List.range row.length).map (fun c => (x, c))))
      = some (acc ++ (List.range (rowAt mat x).length).map (fun c => (x, c))) := by
    intro acc x hx
    have hxl : x < mat.length := List.mem_range.mp hx
    have hsub : subO mat x = some (rowAt mat x) := by
      have hrw : rowAt mat x = mat[x] := List.getD_eq_getElem mat [] hxl
      rw [hrw]
      exact List.getElem?_eq_getElem hxl
    simp only [hsub]
  rw [foldlM_eq_foldl _ _ _ hstep []]
  rw [foldl_append_flatMap, List.nil_append]
  rfl

/-- The checked rowspan_at dictionary equals the source one. -/
theorem rowspan_atO_eq (mat : Mat) : rowspan_atO mat = some (rowspan_at mat) := by
  unfold rowspan_atO
  simp only [positionsO_eq mat]
  have hstep : ∀ (acc : List (Nat × Nat)), ∀ x ∈ positions mat,
      coveredStepO mat mat.length acc x = some (coveredStep mat mat.length acc x) := by
    intro acc x hx
    obtain ⟨h1, h2⟩ := (mem_positions mat x).mp hx
    exact coveredStepO_eq mat mat.length (le_refl _) acc x h1 h2
  rw [foldlM_eq_foldl _ _ _ hstep []]
  rfl

/-- The checked emission loop equals the source one whenever the fuel is at
least the remaining columns of the row. -/
theorem emitRowO_eq (mat : Mat) (cov : List (Nat × Nat)) (r : Nat) (hr : r < mat.length) :
    ∀ (fuel c : Nat), (rowAt mat r).length - c ≤ fuel →
      emitRowO mat cov r fuel c = some (emitRow mat cov r c) := by
  have hsub : subO mat r = some (rowAt mat r) := by
    have hrw : rowAt mat r = mat[r] := List.getD_eq_getElem mat [] hr
    rw [hrw]
    exact List.getElem?_eq_getElem hr
  intro fuel
  induction fuel with
  | zero =>
    intro c hf
    simp only [emitRowO, hsub]
    rw [if_neg (by omega), emitRow, dif_neg (by omega)]
  | succ fuel ih =>
    intro c hf
    simp only [emitRowO, hsub]
    by_cases hlt : c < (rowAt mat r).length
    · rw [if_pos hlt]
      by_cases hcov : (r, c) ∈ cov
      · rw [if_pos hcov, ih (c + 1) (by omega)]
        conv_rhs => rw [emitRow]
        rw [dif_pos hlt, if_pos hcov]
      · rw [if_neg hcov]
        have hsub2 : subO (rowAt mat r) c = some (entry mat r c) := by
          have he : entry mat r c = (rowAt mat r)[c] :=
            List.getD_eq_getElem (rowAt mat r) 0 hlt
          rw [he]
          exact List.getElem?_eq_getElem hlt
        have hcs : 1 ≤ get_colspan mat r c := by
          unfold get_colspan
          omega
        simp only [hsub2, get_rowspanO_eq mat r c hr hlt, get_colspanO_eq mat r c hr hlt,
          ih (c + get_colspan mat r c) (by omega)]
        conv_rhs => rw [emitRow]
        rw [dif_pos hlt, if_neg hcov]
    · rw [if_neg hlt, emitRow, dif_neg hlt]

/-- C9: on a ragged matrix (two rows of unequal length), every matrix
subscript _table_to_html performs is in bounds: the bounds-checked mirror
_table_to_htmlO, in which any out-of-range access returns none, returns
some of exactly the string _table_to_html produces, so no IndexError can
occur. -/
theorem c9_ragged_safe (t : PyTable) (i j : Nat)
    (hi : i < t.matrix.length) (hj : j < t.matrix.length)
    (hne : (rowAt t.matrix i).length ≠ (rowAt t.matrix j).length) :
    _table_to_htmlO t = some (_table_to_html t) := by
  unfold _table_to_htmlO _table_to_html
  by_cases h1 : t.cells = [] ∨ t.matrix = []
  · have hemc : emittedCellData t = none := by
      unfold emittedCellData
      rw [if_pos h1]
    rw [if_pos h1]
    simp only [hemc]
  · rw [if_neg h1]
    by_cases h2 : t.matrix.length = 0 ∨ tableCols t.matrix = 0
    · have hemc : emittedCellData t = none := by
        unfold emittedCellData
        rw [if_neg h1, if_pos h2]
      rw [if_pos h2]
      simp only [hemc]
    · rw [if_neg h2]
      have hemc : emittedCellData t = some ((List.range t.matrix.length).map
          (fun r => emitRow t.matrix (rowspan_at t.matrix) r 0)) := by
        unfold emittedCellData
        rw [if_neg h1, if_neg h2]
      have hmap : (List.range t.matrix.length).mapM (fun r =>
          match subO t.matrix r with
          | none => none
          | some row => emitRowO t.matrix (rowspan_at t.matrix) r row.length 0)
          = some ((List.range t.matrix.length).map
            (fun r => emitRow t.matrix (rowspan_at t.matrix) r 0)) := by
        apply mapM_eq_map
        intro x hx
        have hxl : x < t.matrix.length := List.mem_range.mp hx
        have hsub : subO t.matrix x = some (rowAt t.matrix x) := by
          have hrw : rowAt t.matrix x = t.matrix[x] := List.getD_eq_getElem t.matrix [] hxl
          rw [hrw]
          exact List.getElem?_eq_getElem hxl
        simp only [hsub]
        exact emitRowO_eq t.matrix (rowspan_at t.matrix) x hxl _ 0 (by omega)
      simp only [rowspan_atO_eq t.matrix, hmap, hemc]

/-- Witness for c9_ragged_safe: the ragged table with matrix rows of
lengths 2 and 1. -/
theorem c9_ragged_safe_witness :
    _table_to_htmlO { cells := ["a", "b", "c"], matrix := [[0, 1], [2]], markdown := "" }
      = some (_table_to_html
        { cells := ["a", "b", "c"], matrix := [[0, 1], [2]], markdown := "" }) :=
  c9_ragged_safe
    { cells := ["a", "b", "c"], matrix := [[0, 1], [2]], markdown := "" } 0 1
    (by decide) (by decide) (by decide)

/-- Witness for c1_single_merge: a 3 by 3 matrix whose top-left 2 by 2 block
holds cell index 0 and whose other entries are the distinct indices 1..5. -/
theorem c1_single_merge_witness :
    ∃ em, emittedCellData
        { cells := ["a", "b", "c", "d", "e", "f"],
          matrix := [[0, 0, 1], [0, 0, 2], [3, 4, 5]], markdown := "" } = some em ∧
      (0, 2, 2) ∈ em.getD 0 [] ∧
      (∀ e ∈ em.getD 0 [], e.1 = 0 → e = (0, 2, 2)) ∧
      (∀ e ∈ em.getD 0 [], e.1 ≠ 1) ∧
      (∀ e ∈ em.getD 1 [], e.1 ≠ 0 ∧ e.1 ≠ 1) ∧
      (∀ r, r < em.length → ∀ e ∈ em.getD r [], (e.2.1 ≠ 1 ∨ e.2.2 ≠ 1) →
        r = 0 ∧ e = (0, 2, 2)) ∧
      (em.getD 0 []).Pairwise (fun a b => a.1 < b.1) :=
  c1_single_merge
    { cells := ["a", "b", "c", "d", "e", "f"],
      matrix := [[0, 0, 1], [0, 0, 2], [3, 4, 5]], markdown := "" } 0 0
    (by decide) (by decide) (by decide) (by decide) (by decide) (by decide)
    (by decide) (by decide) (by decide)

end EbookToMd
